import Mathlib

/-!
Verification of the ezpg connection-pool facade library.

The development shallowly embeds the two facade modules (`sync_pool.py`,
`async_pool.py`): pure data flow becomes Lean functions, the mutable pool
objects owned by the underlying client libraries become an explicit world
of pool records, and exceptions become `Except` results.  The structured
text codec installed on concurrent-pool connections (the standard library
JSON serializer and parser passed as `encoder`/`decoder`) is modelled by an
executable JSON encoder and parser over structured values with integer
numerals, and the round-trip law is proved.
-/

namespace Ezpg

/-! ## Structured values and the structured-text (JSON) codec model -/

/-- Structured values handled by the codec installed in
`AsyncDatabasePool._setup_connection`.  Numerals are modelled as integers;
object members are kept in insertion order, mirroring the source dictionaries. -/
inductive Json where
  | null : Json
  | bool : Bool → Json
  | int : Int → Json
  | str : String → Json
  | arr : List Json → Json
  | obj : List (String × Json) → Json

/-- Opening brace character, kept as a named constant. -/
def lbrace : Char := Char.ofNat 123

/-- Closing brace character, kept as a named constant. -/
def rbrace : Char := Char.ofNat 125

/-- Lower-case hexadecimal digit for a value below 16. -/
def hexDigitChar (n : Nat) : Char :=
  Char.ofNat (if n < 10 then 48 + n else 87 + n)

/-- Decimal digit character for a value below 10. -/
def digitChar (d : Nat) : Char := hexDigitChar d

/-- Backslash-u escape of a code unit below 65536. -/
def uEsc (n : Nat) : List Char :=
  ['\\', 'u', hexDigitChar (n / 4096 % 16), hexDigitChar (n / 256 % 16),
   hexDigitChar (n / 16 % 16), hexDigitChar (n % 16)]

/-- Serialization of one string character, following the default
(ASCII-only) escaping of the standard library serializer: the quote and
backslash get two-character escapes, five control characters get their
short escapes, every other character outside the printable ASCII range is
escaped with backslash-u (code points beyond 65535 as a surrogate pair),
and printable ASCII is emitted literally. -/
def escChar (c : Char) : List Char :=
  if c = '"' then ['\\', '"']
  else if c = '\\' then ['\\', '\\']
  else if c.toNat = 8 then ['\\', 'b']
  else if c.toNat = 9 then ['\\', 't']
  else if c.toNat = 10 then ['\\', 'n']
  else if c.toNat = 12 then ['\\', 'f']
  else if c.toNat = 13 then ['\\', 'r']
  else if c.toNat < 32 ∨ 126 < c.toNat then
    if c.toNat < 65536 then uEsc c.toNat
    else uEsc (55296 + (c.toNat - 65536) / 1024) ++ uEsc (56320 + (c.toNat - 65536) % 1024)
  else [c]

/-- Serialization of a string body, character by character. -/
def encStr : List Char → List Char
  | [] => []
  | c :: rest => escChar c ++ encStr rest

/-- Decimal digits of a natural number, most significant first; the first
argument is fuel, sufficient whenever it exceeds the number. -/
def natDigitsAux : Nat → Nat → List Char
  | 0, _ => []
  | Nat.succ f, n =>
    if n < 10 then [digitChar n]
    else natDigitsAux f (n / 10) ++ [digitChar (n % 10)]

/-- Decimal digits of a natural number, most significant first. -/
def natDigits (n : Nat) : List Char := natDigitsAux (n + 1) n

/-- Decimal rendering of an integer, as the standard decimal repr. -/
def intDigits (i : Int) : List Char :=
  if i < 0 then '-' :: natDigits (-i).toNat else natDigits i.toNat

mutual

/-- Serializer for structured values, following the standard library
serializer with default separators: elements joined by a comma and a
space, keys separated from values by a colon and a space. -/
def encVal : Json → List Char
  | Json.null => ['n', 'u', 'l', 'l']
  | Json.bool b => if b then ['t', 'r', 'u', 'e'] else ['f', 'a', 'l', 's', 'e']
  | Json.int i => intDigits i
  | Json.str s => '"' :: (encStr s.data ++ ['"'])
  | Json.arr xs =>
    match xs with
    | [] => ['[', ']']
    | x :: rest => '[' :: (encVal x ++ encElemsRest rest ++ [']'])
  | Json.obj ms =>
    match ms with
    | [] => [lbrace, rbrace]
    | (k, v) :: rest => lbrace :: (encMember k v ++ encMembersRest rest ++ [rbrace])

/-- Serialization of the remaining array elements, each preceded by a
comma and a space. -/
def encElemsRest : List Json → List Char
  | [] => []
  | x :: rest => ',' :: ' ' :: (encVal x ++ encElemsRest rest)

/-- Serialization of one object member: quoted key, colon, space, value. -/
def encMember (k : String) (v : Json) : List Char :=
  '"' :: (encStr k.data ++ ('"' :: ':' :: ' ' :: encVal v))

/-- Serialization of the remaining object members, each preceded by a
comma and a space. -/
def encMembersRest : List (String × Json) → List Char
  | [] => []
  | (k, v) :: rest => ',' :: ' ' :: (encMember k v ++ encMembersRest rest)

end

/-- Whitespace characters skipped by the parser. -/
def isWsChar (c : Char) : Bool :=
  c = ' ' || c = '\t' || c = '\n' || c = '\r'

/-- Leading-whitespace removal. -/
def skipWs : List Char → List Char
  | [] => []
  | c :: rest => if isWsChar c then skipWs rest else c :: rest

/-- Hexadecimal value of a character, if it is a hexadecimal digit. -/
def hexVal? (c : Char) : Option Nat :=
  let n := c.toNat
  if 48 ≤ n ∧ n ≤ 57 then some (n - 48)
  else if 97 ≤ n ∧ n ≤ 102 then some (n - 87)
  else if 65 ≤ n ∧ n ≤ 70 then some (n - 55)
  else none

/-- Prepend a character to the string being collected by the string-body
parser. -/
def mapConsChar (c : Char) : Option (List Char × List Char) → Option (List Char × List Char)
  | some (cs, rest) => some (c :: cs, rest)
  | none => none

/-- Value of four hexadecimal digit characters, if all four are such. -/
def hex4 (a b c d : Char) : Option Nat :=
  match hexVal? a, hexVal? b, hexVal? c, hexVal? d with
  | some x1, some x2, some x3, some x4 => some (4096 * x1 + 256 * x2 + 16 * x3 + x4)
  | _, _, _, _ => none

/-- Decoder for the low-surrogate value of a second backslash-u group:
combines it with the high surrogate already read. -/
def readLowSurWith (n : Nat) : Option Nat → List Char → Option (Char × List Char)
  | some m, rest4 =>
    if 56320 ≤ m ∧ m ≤ 57343 then
      some (Char.ofNat (65536 + 1024 * (n - 55296) + (m - 56320)), rest4)
    else none
  | none, _ => none

/-- Decoder for the second backslash-u group after a high surrogate. -/
def readLowSur (n : Nat) : List Char → Option (Char × List Char)
  | b1 :: u1 :: a2 :: b2 :: c3 :: d3 :: rest4 =>
    if b1 = '\\' ∧ u1 = 'u' then readLowSurWith n (hex4 a2 b2 c3 d3) rest4 else none
  | _ => none

/-- Decoder dispatch on the value of the first four hexadecimal digits:
high surrogates require a second group, lone low surrogates are rejected,
anything else is the decoded character. -/
def readUEscWith : Option Nat → List Char → Option (Char × List Char)
  | none, _ => none
  | some n, rest3 =>
    if 55296 ≤ n ∧ n ≤ 56319 then readLowSur n rest3
    else if 56320 ≤ n ∧ n ≤ 57343 then none
    else some (Char.ofNat n, rest3)

/-- Decoder for the backslash-u escape tail: four hexadecimal digits,
possibly followed by a second backslash-u group when the first names a
high surrogate. -/
def readUEsc : List Char → Option (Char × List Char)
  | a :: b :: c2 :: d2 :: rest3 => readUEscWith (hex4 a b c2 d2) rest3
  | _ => none

/-- Decoder for one escape sequence after the backslash: the decoded
character and the remaining input. -/
def readEsc : List Char → Option (Char × List Char)
  | [] => none
  | e :: rest2 =>
    if e = 'u' then readUEsc rest2
    else if e = '"' then some ('"', rest2)
    else if e = '\\' then some ('\\', rest2)
    else if e = '/' then some ('/', rest2)
    else if e = 'b' then some (Char.ofNat 8, rest2)
    else if e = 't' then some ('\t', rest2)
    else if e = 'n' then some ('\n', rest2)
    else if e = 'f' then some (Char.ofNat 12, rest2)
    else if e = 'r' then some ('\r', rest2)
    else none

/-- Fuel-indexed parser for a string body after the opening quote:
collects characters until the closing quote, decoding the escapes
(including surrogate pairs) and rejecting unescaped control characters,
as the strict standard parser does.  Each step consumes at least one
character, so fuel exceeding the input length suffices. -/
def parseStrBody : Nat → List Char → Option (List Char × List Char)
  | 0, _ => none
  | Nat.succ f, cs =>
    match cs with
    | [] => none
    | c :: rest =>
      if c = '"' then some ([], rest)
      else if c = '\\' then
        match readEsc rest with
        | some (d, rest2) => mapConsChar d (parseStrBody f rest2)
        | none => none
      else if c.toNat < 32 then none
      else mapConsChar c (parseStrBody f rest)

/-- Parser for a string body, with sufficient fuel for its input. -/
def parseStr (cs : List Char) : Option (List Char × List Char) :=
  parseStrBody (cs.length + 1) cs

/-- Accumulating decimal-digit reader: consumes a maximal digit run. -/
def parseDigitsAcc : Nat → List Char → Nat × List Char
  | acc, [] => (acc, [])
  | acc, c :: rest =>
    if c.isDigit then parseDigitsAcc (10 * acc + (c.toNat - 48)) rest
    else (acc, c :: rest)

/-- Parser for a nonempty digit run. -/
def parseNat : List Char → Option (Nat × List Char)
  | [] => none
  | c :: rest =>
    if c.isDigit then some (parseDigitsAcc (c.toNat - 48) rest) else none

/-- Continuation test: true when the input continues with a fractional or
exponent part, which the integer-numeral model rejects. -/
def numCont : List Char → Bool
  | [] => false
  | c :: _ => c = '.' || c = 'e' || c = 'E'

/-- Parser for an integer numeral: optional minus sign, then digits;
numerals continuing with a fractional or exponent part are outside the
integer-numeral model and rejected. -/
def parseIntTok : List Char → Option (Int × List Char) := fun cs =>
  match cs with
  | [] => none
  | c :: rest =>
    if c = '-' then
      match parseNat rest with
      | some (n, rest2) => if numCont rest2 then none else some (-(n : Int), rest2)
      | none => none
    else
      match parseNat (c :: rest) with
      | some (n, rest2) => if numCont rest2 then none else some ((n : Int), rest2)
      | none => none

/-- Literal matcher: consumes exactly the given characters. -/
def expectChars : List Char → List Char → Option (List Char)
  | [], cs => some cs
  | _ :: _, [] => none
  | l :: ls, c :: cs => if c = l then expectChars ls cs else none

mutual

/-- Fuel-indexed parser for one structured value, mirroring the recursive
descent of the standard library parser. -/
def parseVal : Nat → List Char → Option (Json × List Char)
  | 0, _ => none
  | Nat.succ fuel, cs =>
    match skipWs cs with
    | [] => none
    | c :: rest =>
      if c = 'n' then
        match expectChars ['u', 'l', 'l'] rest with
        | some rest2 => some (Json.null, rest2)
        | none => none
      else if c = 't' then
        match expectChars ['r', 'u', 'e'] rest with
        | some rest2 => some (Json.bool true, rest2)
        | none => none
      else if c = 'f' then
        match expectChars ['a', 'l', 's', 'e'] rest with
        | some rest2 => some (Json.bool false, rest2)
        | none => none
      else if c = '"' then
        match parseStr rest with
        | some (cs2, rest2) => some (Json.str (String.mk cs2), rest2)
        | none => none
      else if c = '[' then
        match skipWs rest with
        | [] => none
        | d :: rest2 =>
          if d = ']' then some (Json.arr [], rest2)
          else
            match parseElems fuel (d :: rest2) with
            | some (xs, rest3) => some (Json.arr xs, rest3)
            | none => none
      else if c = lbrace then
        match skipWs rest with
        | [] => none
        | d :: rest2 =>
          if d = rbrace then some (Json.obj [], rest2)
          else
            match parseMembers fuel (d :: rest2) with
            | some (ms, rest3) => some (Json.obj ms, rest3)
            | none => none
      else
        match parseIntTok (c :: rest) with
        | some (i, rest2) => some (Json.int i, rest2)
        | none => none

/-- Fuel-indexed parser for a nonempty comma-separated element list up to
the closing bracket. -/
def parseElems : Nat → List Char → Option (List Json × List Char)
  | 0, _ => none
  | Nat.succ fuel, cs =>
    match parseVal fuel cs with
    | some (v, rest) =>
      match skipWs rest with
      | [] => none
      | d :: rest2 =>
        if d = ',' then
          match parseElems fuel rest2 with
          | some (vs, rest3) => some (v :: vs, rest3)
          | none => none
        else if d = ']' then some ([v], rest2)
        else none
    | none => none

/-- Fuel-indexed parser for a nonempty comma-separated member list up to
the closing brace. -/
def parseMembers : Nat → List Char → Option (List (String × Json) × List Char)
  | 0, _ => none
  | Nat.succ fuel, cs =>
    match skipWs cs with
    | [] => none
    | c :: rest =>
      if c = '"' then
        match parseStr rest with
        | some (kcs, rest2) =>
          match skipWs rest2 with
          | [] => none
          | d :: rest3 =>
            if d = ':' then
              match parseVal fuel rest3 with
              | some (v, rest4) =>
                match skipWs rest4 with
                | [] => none
                | e :: rest5 =>
                  if e = ',' then
                    match parseMembers fuel rest5 with
                    | some (ms, rest6) => some ((String.mk kcs, v) :: ms, rest6)
                    | none => none
                  else if e = rbrace then some ([(String.mk kcs, v)], rest5)
                  else none
              | none => none
            else none
        | none => none
      else none

end

/-- Serializer entry point: the encoder handed to the connection setup. -/
def Json.dumps (v : Json) : String := String.mk (encVal v)

/-- Parser entry point: the decoder handed to the connection setup; parses
one value and requires only whitespace to remain. -/
def Json.loads (s : String) : Option Json :=
  match parseVal (s.data.length + 1) s.data with
  | some (v, rest) => if (skipWs rest).isEmpty then some v else none
  | none => none

/-- Serialization of a whole element list as it appears between the
brackets. -/
def encItems : List Json → List Char
  | [] => []
  | x :: rest => encVal x ++ encElemsRest rest

/-- Serialization of a whole member list as it appears between the
braces. -/
def encMItems : List (String × Json) → List Char
  | [] => []
  | (k, v) :: rest => encMember k v ++ encMembersRest rest

/-- Value of a digit run under the accumulating reader. -/
def digitsVal (acc : Nat) (ds : List Char) : Nat :=
  ds.foldl (fun a c => 10 * a + (c.toNat - 48)) acc

/-- Whether the input begins with a decimal digit. -/
def headIsDigit : List Char → Bool
  | [] => false
  | c :: _ => c.isDigit

/-- Whether the input would extend a just-read numeral: a further digit,
or a fractional or exponent marker. -/
def numExt : List Char → Bool
  | [] => false
  | c :: _ => c.isDigit || c = '.' || c = 'e' || c = 'E'

/-! ## Common error model

Exceptions raised by the facade layer or propagated through it become
constructors of one error type. -/

/-- Errors surfaced by facade operations: the facade's own usage error
(RuntimeError on an absent pool handle), the underlying pool's closed-pool
error, the driver's construction failure, a query error propagated
unchanged from the driver, an index error from tuple indexing, and the
driver's deadline-exceeded error. -/
inductive Err where
  | notInitialized : Err
  | poolClosed : Err
  | connectionError : Err
  | queryError : String → Err
  | indexError : Err
  | timeout : Err
deriving DecidableEq, Repr

/-- Result of running one statement: an optional status message and the
matching rows, each row a tuple of values. -/
structure QueryResult (V : Type) where
  statusmessage : Option String
  rows : List (List V)

/-- Python truthiness of an argument tuple, as used by the source's
`args if args else None`. -/
def argsOpt {V : Type} (args : List V) : Option (List V) :=
  if args.isEmpty then none else some args

/-- Python `or` on an optional status string against the empty string, as
used by the source's `cur.statusmessage or ""`. -/
def pyStrOr (s : Option String) : String :=
  match s with
  | none => ""
  | some m => m

/-- Python sequence indexing on a row tuple: non-negative indices from the
front, negative indices from the back, out of range is an index error. -/
def pyGet {V : Type} (xs : List V) (i : Int) : Option V :=
  let j : Int := if i < 0 then (xs.length : Int) + i else i
  if 0 ≤ j then xs.get? j.toNat else none

/-- Python `or` of an optional numeric timeout against a default, as used
by the source's `timeout or 60.0`: an absent or zero timeout yields the
default. -/
def pyOrQ (t : Option ℚ) (d : ℚ) : ℚ :=
  match t with
  | none => d
  | some x => if x = 0 then d else x

/-! ## Synchronous facade (sync_pool.py)

The blocking pool objects owned by the underlying client library live in
an explicit world; a facade's `_pool` attribute is an optional index into
it.  Statement execution by the driver is an abstract function supplied to
each query operation. -/

/-- Model of one underlying blocking pool object: its construction
arguments and whether it has been closed. -/
structure PsycopgPool where
  conninfo : String
  min_size : Int
  max_size : Int
  closed : Bool

/-- World of blocking pool objects created so far; a pool handle is an
index into this list. -/
structure SyncWorld where
  pools : List PsycopgPool

/-- World with no pools yet. -/
def SyncWorld.empty : SyncWorld := { pools := [] }

/-- Whether the pool at an index is closed; a dangling index counts as
closed. -/
def SyncWorld.closedAt (w : SyncWorld) (idx : Nat) : Bool :=
  match w.pools.get? idx with
  | none => true
  | some r => r.closed

/-- Pool record at an index. -/
def SyncWorld.at? (w : SyncWorld) (idx : Nat) : Option PsycopgPool :=
  w.pools.get? idx

/-- World after closing the pool at an index. -/
def SyncWorld.closeAt (w : SyncWorld) (idx : Nat) : SyncWorld :=
  match w.pools.get? idx with
  | none => w
  | some r => { pools := w.pools.set idx { r with closed := true } }

/-- Abstract model of the blocking driver: what executing one statement,
or a batch, returns.  Failures are query errors propagated unchanged. -/
structure SyncDriver (V : Type) where
  run : String → Option (List V) → Except String (QueryResult V)
  runMany : String → List (List V) → Except String Unit

/-- Facade state: the construction parameters and the `_pool` attribute. -/
structure SyncDatabasePool where
  host : String
  port : Int
  database : String
  user : String
  password : String
  min_connections : Int
  max_connections : Int
  pool : Option Nat

/-- Constructor `SyncDatabasePool.__init__`: stores the configuration and
sets the pool handle to None. -/
def SyncDatabasePool.make (host : String) (port : Int) (database user password : String)
    (min_connections max_connections : Int) : SyncDatabasePool :=
  { host := host, port := port, database := database, user := user,
    password := password, min_connections := min_connections,
    max_connections := max_connections, pool := none }

/-- Connection string assembled by `SyncDatabasePool.initialize`, exactly
as the source's two concatenated f-string fragments. -/
def SyncDatabasePool.conninfo (p : SyncDatabasePool) : String :=
  "host=" ++ p.host ++ " port=" ++ toString p.port ++ " dbname=" ++ p.database
    ++ " user=" ++ p.user ++ " password=" ++ p.password

/-- Method `SyncDatabasePool.initialize`: constructs the underlying pool
from the connection string and stores its handle; `mkOk` models whether
the external pool construction succeeds, and on failure the error is
propagated after logging with the facade unchanged. -/
def SyncDatabasePool.initPool (w : SyncWorld) (p : SyncDatabasePool) (mkOk : Bool) :
    SyncWorld × SyncDatabasePool × Except Err Unit :=
  if mkOk then
    let rec0 : PsycopgPool :=
      { conninfo := p.conninfo, min_size := p.min_connections,
        max_size := p.max_connections, closed := false }
    ({ pools := w.pools ++ [rec0] }, { p with pool := some w.pools.length }, Except.ok ())
  else (w, p, Except.error Err.connectionError)

/-- Method `SyncDatabasePool.close`: if a pool handle exists, closes the
underlying pool; the handle itself is left in place. -/
def SyncDatabasePool.close (w : SyncWorld) (p : SyncDatabasePool) :
    SyncWorld × SyncDatabasePool :=
  match p.pool with
  | none => (w, p)
  | some idx => (w.closeAt idx, p)

/-- Method `SyncDatabasePool.acquire`: raises the usage error when the
pool handle is absent, otherwise borrows a connection from the underlying
pool, which itself fails when that pool has been closed. -/
def SyncDatabasePool.acquire (w : SyncWorld) (p : SyncDatabasePool) : Except Err Unit :=
  match p.pool with
  | none => Except.error Err.notInitialized
  | some idx => if w.closedAt idx then Except.error Err.poolClosed else Except.ok ()

/-- Method `SyncDatabasePool.transaction`: composes `acquire` with a
transactional scope on the borrowed connection; the demarcation itself is
delegated to the underlying library, so the facade-level effect is the
acquisition gate. -/
def SyncDatabasePool.transaction (w : SyncWorld) (p : SyncDatabasePool) : Except Err Unit :=
  p.acquire w

/-- Method `SyncDatabasePool.execute`: acquires a connection, runs the
statement, returns `cur.statusmessage or ""`; the timeout argument is
accepted and unused. -/
def SyncDatabasePool.execute {V : Type} (w : SyncWorld) (db : SyncDriver V)
    (p : SyncDatabasePool) (query : String) (args : List V) (timeout : Option ℚ) :
    Except Err String :=
  match p.acquire w with
  | Except.error e => Except.error e
  | Except.ok _ =>
    match db.run query (argsOpt args) with
    | Except.error msg => Except.error (Err.queryError msg)
    | Except.ok qr => Except.ok (pyStrOr qr.statusmessage)

/-- Method `SyncDatabasePool.executemany`: acquires a connection and runs
the statement once per parameter tuple; the timeout argument is accepted
and unused. -/
def SyncDatabasePool.executemany {V : Type} (w : SyncWorld) (db : SyncDriver V)
    (p : SyncDatabasePool) (query : String) (args : List (List V)) (timeout : Option ℚ) :
    Except Err Unit :=
  match p.acquire w with
  | Except.error e => Except.error e
  | Except.ok _ =>
    match db.runMany query args with
    | Except.error msg => Except.error (Err.queryError msg)
    | Except.ok _ => Except.ok ()

/-- Method `SyncDatabasePool.fetch`: acquires a connection, runs the
query, returns all rows; the timeout argument is accepted and unused. -/
def SyncDatabasePool.fetch {V : Type} (w : SyncWorld) (db : SyncDriver V)
    (p : SyncDatabasePool) (query : String) (args : List V) (timeout : Option ℚ) :
    Except Err (List (List V)) :=
  match p.acquire w with
  | Except.error e => Except.error e
  | Except.ok _ =>
    match db.run query (argsOpt args) with
    | Except.error msg => Except.error (Err.queryError msg)
    | Except.ok qr => Except.ok qr.rows

/-- Method `SyncDatabasePool.fetchrow`: acquires a connection, runs the
query, returns the first row or None; the timeout argument is accepted
and unused. -/
def SyncDatabasePool.fetchrow {V : Type} (w : SyncWorld) (db : SyncDriver V)
    (p : SyncDatabasePool) (query : String) (args : List V) (timeout : Option ℚ) :
    Except Err (Option (List V)) :=
  match p.acquire w with
  | Except.error e => Except.error e
  | Except.ok _ =>
    match db.run query (argsOpt args) with
    | Except.error msg => Except.error (Err.queryError msg)
    | Except.ok qr => Except.ok qr.rows.head?

/-- Method `SyncDatabasePool.fetchval`: acquires a connection, runs the
query, returns None when no row matched, else the value of the first row
at the requested column index; the timeout argument is accepted and
unused. -/
def SyncDatabasePool.fetchval {V : Type} (w : SyncWorld) (db : SyncDriver V)
    (p : SyncDatabasePool) (query : String) (args : List V) (column : Int)
    (timeout : Option ℚ) : Except Err (Option V) :=
  match p.acquire w with
  | Except.error e => Except.error e
  | Except.ok _ =>
    match db.run query (argsOpt args) with
    | Except.error msg => Except.error (Err.queryError msg)
    | Except.ok qr =>
      match qr.rows.head? with
      | none => Except.ok none
      | some row =>
        match pyGet row column with
        | none => Except.error Err.indexError
        | some v => Except.ok (some v)

/-- Module-level optional singleton `_sync_db_pool`. -/
structure SyncGlobal where
  db_pool : Option SyncDatabasePool

/-- Function `get_sync_db_pool`: returns the singleton or raises the
usage error when it is absent. -/
def get_sync_db_pool (g : SyncGlobal) : Except Err SyncDatabasePool :=
  match g.db_pool with
  | none => Except.error Err.notInitialized
  | some p => Except.ok p

/-- Function `init_sync_database`: overwrites the singleton with a fresh
facade, then initializes it; the overwrite happens before initialization,
so on failure the singleton holds the fresh uninitialized facade. -/
def init_sync_database (w : SyncWorld) (g : SyncGlobal) (host : String) (port : Int)
    (database user password : String) (min_connections max_connections : Int)
    (mkOk : Bool) : SyncWorld × SyncGlobal × Except Err Unit :=
  let p := SyncDatabasePool.make host port database user password
    min_connections max_connections
  match p.initPool w mkOk with
  | (w2, p2, res) => (w2, { db_pool := some p2 }, res)

/-- Function `close_sync_database`: closes the singleton's pool when one
is stored, then nulls the singleton reference. -/
def close_sync_database (w : SyncWorld) (g : SyncGlobal) : SyncWorld × SyncGlobal :=
  match g.db_pool with
  | none => (w, g)
  | some p =>
    match p.close w with
    | (w2, _) => (w2, { db_pool := none })

/-! ## Concurrent facade (async_pool.py)

Mirror of the synchronous model; additionally each underlying pool record
carries the per-connection setup hook, and connection-level statement
execution honours a per-call deadline against the driver's execution
time. -/

/-- Type codec registered on a connection: type name, schema, encoder and
decoder hooks. -/
structure Codec where
  typname : String
  schema : String
  enc : Json → String
  dec : String → Option Json

/-- Model of one physical connection: the codecs registered on it. -/
structure AsyncConn where
  codecs : List Codec

/-- Codec registered for the first structured-text column type: the
serializer as encoder and the parser as decoder, in the catalog schema. -/
def jsonCodec : Codec :=
  { typname := "json", schema := "pg_catalog", enc := Json.dumps, dec := Json.loads }

/-- Codec registered for the second structured-text column type. -/
def jsonbCodec : Codec :=
  { typname := "jsonb", schema := "pg_catalog", enc := Json.dumps, dec := Json.loads }

/-- Method `AsyncDatabasePool._setup_connection`: registers the
structured-text codec (serializer as encoder, parser as decoder) for the
two structured-text column types in the catalog schema. -/
def AsyncDatabasePool.setupConnection (conn : AsyncConn) : AsyncConn :=
  { conn with codecs := conn.codecs ++ [jsonCodec, jsonbCodec] }

/-- Model of one underlying concurrent pool object: construction
arguments, the default command timeout, the per-connection setup hook,
and whether the pool has been closed. -/
structure AsyncpgPool where
  host : String
  port : Int
  database : String
  user : String
  password : String
  min_size : Int
  max_size : Int
  command_timeout : ℚ
  connInit : AsyncConn → AsyncConn
  closed : Bool

/-- Every new physical connection of the pool passes through the setup
hook given at pool construction. -/
def AsyncpgPool.newConnection (pl : AsyncpgPool) : AsyncConn :=
  pl.connInit { codecs := [] }

/-- World of concurrent pool objects created so far. -/
structure AsyncWorld where
  pools : List AsyncpgPool

/-- World with no pools yet. -/
def AsyncWorld.empty : AsyncWorld := { pools := [] }

/-- Whether the pool at an index is closed; a dangling index counts as
closed. -/
def AsyncWorld.closedAt (w : AsyncWorld) (idx : Nat) : Bool :=
  match w.pools.get? idx with
  | none => true
  | some r => r.closed

/-- Pool record at an index. -/
def AsyncWorld.at? (w : AsyncWorld) (idx : Nat) : Option AsyncpgPool :=
  w.pools.get? idx

/-- World after closing the pool at an index. -/
def AsyncWorld.closeAt (w : AsyncWorld) (idx : Nat) : AsyncWorld :=
  match w.pools.get? idx with
  | none => w
  | some r => { pools := w.pools.set idx { r with closed := true } }

/-- Abstract model of the concurrent driver: result of one statement or a
batch, and how long each takes to execute (used against per-call
deadlines). -/
structure AsyncDriver (V : Type) where
  run : String → List V → Except String (QueryResult V)
  runMany : String → List (List V) → Except String Unit
  execTime : String → List V → ℚ
  execTimeMany : String → List (List V) → ℚ

/-- Whether a statement exceeds the per-call deadline carried by the
query; an absent deadline never trips. -/
def connTimedOut {V : Type} (db : AsyncDriver V) (query : String) (args : List V)
    (t : Option ℚ) : Bool :=
  match t with
  | none => false
  | some tt => decide (tt < db.execTime query args)

/-- Connection-level `conn.execute` with a per-call deadline: a statement
running past the deadline fails with the timeout error instead of
returning its status. -/
def connExecute {V : Type} (db : AsyncDriver V) (query : String) (args : List V)
    (t : Option ℚ) : Except Err String :=
  if connTimedOut db query args t then Except.error Err.timeout
  else
    match db.run query args with
    | Except.error msg => Except.error (Err.queryError msg)
    | Except.ok qr => Except.ok (pyStrOr qr.statusmessage)

/-- Connection-level `conn.executemany` with a per-call deadline. -/
def connExecutemany {V : Type} (db : AsyncDriver V) (query : String)
    (args : List (List V)) (t : Option ℚ) : Except Err Unit :=
  match t with
  | some tt =>
    if tt < db.execTimeMany query args then Except.error Err.timeout
    else
      match db.runMany query args with
      | Except.error msg => Except.error (Err.queryError msg)
      | Except.ok _ => Except.ok ()
  | none =>
    match db.runMany query args with
    | Except.error msg => Except.error (Err.queryError msg)
    | Except.ok _ => Except.ok ()

/-- Connection-level `conn.fetch` with a per-call deadline. -/
def connFetch {V : Type} (db : AsyncDriver V) (query : String) (args : List V)
    (t : Option ℚ) : Except Err (List (List V)) :=
  if connTimedOut db query args t then Except.error Err.timeout
  else
    match db.run query args with
    | Except.error msg => Except.error (Err.queryError msg)
    | Except.ok qr => Except.ok qr.rows

/-- Connection-level `conn.fetchrow` with a per-call deadline. -/
def connFetchrow {V : Type} (db : AsyncDriver V) (query : String) (args : List V)
    (t : Option ℚ) : Except Err (Option (List V)) :=
  if connTimedOut db query args t then Except.error Err.timeout
  else
    match db.run query args with
    | Except.error msg => Except.error (Err.queryError msg)
    | Except.ok qr => Except.ok qr.rows.head?

/-- Connection-level `conn.fetchval` with a per-call deadline: None when
no row matched, else the value of the first row at the requested column
index. -/
def connFetchval {V : Type} (db : AsyncDriver V) (query : String) (args : List V)
    (column : Int) (t : Option ℚ) : Except Err (Option V) :=
  if connTimedOut db query args t then Except.error Err.timeout
  else
    match db.run query args with
    | Except.error msg => Except.error (Err.queryError msg)
    | Except.ok qr =>
      match qr.rows.head? with
      | none => Except.ok none
      | some row =>
        match pyGet row column with
        | none => Except.error Err.indexError
        | some v => Except.ok (some v)

/-- Facade state: the construction parameters and the `_pool` attribute. -/
structure AsyncDatabasePool where
  host : String
  port : Int
  database : String
  user : String
  password : String
  min_connections : Int
  max_connections : Int
  pool : Option Nat

/-- Constructor `AsyncDatabasePool.__init__`: stores the configuration
and sets the pool handle to None. -/
def AsyncDatabasePool.make (host : String) (port : Int) (database user password : String)
    (min_connections max_connections : Int) : AsyncDatabasePool :=
  { host := host, port := port, database := database, user := user,
    password := password, min_connections := min_connections,
    max_connections := max_connections, pool := none }

/-- Method `AsyncDatabasePool.initialize`: constructs the underlying pool
with the configuration, a command timeout of 60 and the per-connection
setup hook, and stores its handle; `mkOk` models whether the external
pool construction succeeds, and on failure the error is propagated with
the facade unchanged. -/
def AsyncDatabasePool.initPool (w : AsyncWorld) (p : AsyncDatabasePool) (mkOk : Bool) :
    AsyncWorld × AsyncDatabasePool × Except Err Unit :=
  if mkOk then
    let rec0 : AsyncpgPool :=
      { host := p.host, port := p.port, database := p.database, user := p.user,
        password := p.password, min_size := p.min_connections,
        max_size := p.max_connections, command_timeout := 60,
        connInit := AsyncDatabasePool.setupConnection, closed := false }
    ({ pools := w.pools ++ [rec0] }, { p with pool := some w.pools.length }, Except.ok ())
  else (w, p, Except.error Err.connectionError)

/-- Method `AsyncDatabasePool.close`: if a pool handle exists, closes the
underlying pool; the handle itself is left in place. -/
def AsyncDatabasePool.close (w : AsyncWorld) (p : AsyncDatabasePool) :
    AsyncWorld × AsyncDatabasePool :=
  match p.pool with
  | none => (w, p)
  | some idx => (w.closeAt idx, p)

/-- Method `AsyncDatabasePool.acquire`: raises the usage error when the
pool handle is absent, otherwise borrows a connection from the underlying
pool, which itself fails when that pool has been closed. -/
def AsyncDatabasePool.acquire (w : AsyncWorld) (p : AsyncDatabasePool) : Except Err Unit :=
  match p.pool with
  | none => Except.error Err.notInitialized
  | some idx => if w.closedAt idx then Except.error Err.poolClosed else Except.ok ()

/-- Method `AsyncDatabasePool.transaction`: composes `acquire` with a
transactional scope on the borrowed connection; the demarcation itself is
delegated to the underlying library, so the facade-level effect is the
acquisition gate. -/
def AsyncDatabasePool.transaction (w : AsyncWorld) (p : AsyncDatabasePool) : Except Err Unit :=
  p.acquire w

/-- Method `AsyncDatabasePool.execute`: acquires a connection and runs
the statement with deadline `timeout or 60.0`. -/
def AsyncDatabasePool.execute {V : Type} (w : AsyncWorld) (db : AsyncDriver V)
    (p : AsyncDatabasePool) (query : String) (args : List V) (timeout : Option ℚ) :
    Except Err String :=
  match p.acquire w with
  | Except.error e => Except.error e
  | Except.ok _ => connExecute db query args (some (pyOrQ timeout 60))

/-- Method `AsyncDatabasePool.executemany`: acquires a connection and
runs the batch with deadline `timeout or 60.0`. -/
def AsyncDatabasePool.executemany {V : Type} (w : AsyncWorld) (db : AsyncDriver V)
    (p : AsyncDatabasePool) (query : String) (args : List (List V)) (timeout : Option ℚ) :
    Except Err Unit :=
  match p.acquire w with
  | Except.error e => Except.error e
  | Except.ok _ => connExecutemany db query args (some (pyOrQ timeout 60))

/-- Method `AsyncDatabasePool.fetch`: acquires a connection and runs the
query, forwarding the given timeout unchanged. -/
def AsyncDatabasePool.fetch {V : Type} (w : AsyncWorld) (db : AsyncDriver V)
    (p : AsyncDatabasePool) (query : String) (args : List V) (timeout : Option ℚ) :
    Except Err (List (List V)) :=
  match p.acquire w with
  | Except.error e => Except.error e
  | Except.ok _ => connFetch db query args timeout

/-- Method `AsyncDatabasePool.fetchrow`: acquires a connection and runs
the query, forwarding the given timeout unchanged. -/
def AsyncDatabasePool.fetchrow {V : Type} (w : AsyncWorld) (db : AsyncDriver V)
    (p : AsyncDatabasePool) (query : String) (args : List V) (timeout : Option ℚ) :
    Except Err (Option (List V)) :=
  match p.acquire w with
  | Except.error e => Except.error e
  | Except.ok _ => connFetchrow db query args timeout

/-- Method `AsyncDatabasePool.fetchval`: acquires a connection and runs
the query at the requested column index, forwarding the given timeout
unchanged. -/
def AsyncDatabasePool.fetchval {V : Type} (w : AsyncWorld) (db : AsyncDriver V)
    (p : AsyncDatabasePool) (query : String) (args : List V) (column : Int)
    (timeout : Option ℚ) : Except Err (Option V) :=
  match p.acquire w with
  | Except.error e => Except.error e
  | Except.ok _ => connFetchval db query args column timeout

/-- Module-level optional singleton `_async_db_pool`. -/
structure AsyncGlobal where
  db_pool : Option AsyncDatabasePool

/-- Function `get_async_db_pool`: returns the singleton or raises the
usage error when it is absent. -/
def get_async_db_pool (g : AsyncGlobal) : Except Err AsyncDatabasePool :=
  match g.db_pool with
  | none => Except.error Err.notInitialized
  | some p => Except.ok p

/-- Function `init_async_database`: overwrites the singleton with a fresh
facade, then initializes it; the overwrite happens before initialization,
so on failure the singleton holds the fresh uninitialized facade. -/
def init_async_database (w : AsyncWorld) (g : AsyncGlobal) (host : String) (port : Int)
    (database user password : String) (min_connections max_connections : Int)
    (mkOk : Bool) : AsyncWorld × AsyncGlobal × Except Err Unit :=
  let p := AsyncDatabasePool.make host port database user password
    min_connections max_connections
  match p.initPool w mkOk with
  | (w2, p2, res) => (w2, { db_pool := some p2 }, res)

/-- Function `close_async_database`: closes the singleton's pool when one
is stored, then nulls the singleton reference. -/
def close_async_database (w : AsyncWorld) (g : AsyncGlobal) : AsyncWorld × AsyncGlobal :=
  match g.db_pool with
  | none => (w, g)
  | some p =>
    match p.close w with
    | (w2, _) => (w2, { db_pool := none })

/-! ## Specification-side definitions and concrete fixtures -/

/-- Space-separated join, following the spec's words for the connection
string format. -/
def spaceJoin : List String → String
  | [] => ""
  | [x] => x
  | x :: rest => x ++ " " ++ spaceJoin rest

/-- Key-value pair rendering for the connection string format. -/
def kvPair (k v : String) : String := k ++ "=" ++ v

/-- Key name constants of the connection string format. -/
def hostKey : String := "host"

/-- Key name for the port field. -/
def portKey : String := "port"

/-- Key name for the database-name field. -/
def dbnameKey : String := "dbname"

/-- Key name for the user field. -/
def userKey : String := "user"

/-- Key name for the password field. -/
def passwordKey : String := "password"

/-- Connection string format stated by the spec: a single text string of
space-separated key=value pairs with exactly the keys host, port, dbname,
user, password, in that order, each value verbatim from the
configuration.  This definition follows the spec's words; the refinement
theorem compares it with the source-derived `SyncDatabasePool.conninfo`. -/
def conninfoSpec (p : SyncDatabasePool) : String :=
  spaceJoin [kvPair hostKey p.host, kvPair portKey (toString p.port),
    kvPair dbnameKey p.database, kvPair userKey p.user,
    kvPair passwordKey p.password]

/-- Status string fixture for concrete witnesses. -/
def stIns : String := "INSERT 0 1"

/-- Query string fixture for concrete witnesses. -/
def qSel : String := "SELECT 1"

/-- Host fixture for concrete witnesses. -/
def hLocal : String := "localhost"

/-- Blocking driver fixture: one row of two values, an insert status. -/
def rowsDriverS : SyncDriver Nat :=
  { run := fun _ _ => Except.ok { statusmessage := some stIns, rows := [[7, 8], [9, 10]] },
    runMany := fun _ _ => Except.ok () }

/-- Blocking driver fixture with no matching rows. -/
def emptyDriverS : SyncDriver Nat :=
  { run := fun _ _ => Except.ok { statusmessage := none, rows := [] },
    runMany := fun _ _ => Except.ok () }

/-- Concurrent driver fixture: one row of two values, ten-second
statements. -/
def rowsDriverA : AsyncDriver Nat :=
  { run := fun _ _ => Except.ok { statusmessage := some stIns, rows := [[7, 8], [9, 10]] },
    runMany := fun _ _ => Except.ok (),
    execTime := fun _ _ => 10, execTimeMany := fun _ _ => 10 }

/-- Concurrent driver fixture with no matching rows and instantaneous
statements. -/
def emptyDriverA : AsyncDriver Nat :=
  { run := fun _ _ => Except.ok { statusmessage := none, rows := [] },
    runMany := fun _ _ => Except.ok (),
    execTime := fun _ _ => 0, execTimeMany := fun _ _ => 0 }

/-- Concurrent driver fixture whose statements take a hundred seconds,
used to observe deadlines. -/
def slowDriverA : AsyncDriver Nat :=
  { run := fun _ _ => Except.ok { statusmessage := some stIns, rows := [[7, 8]] },
    runMany := fun _ _ => Except.ok (),
    execTime := fun _ _ => 100, execTimeMany := fun _ _ => 100 }

/-- Sync facade fixture constructed with the usual test configuration. -/
def pS : SyncDatabasePool := SyncDatabasePool.make hLocal 5432 hLocal hLocal hLocal 1 10

/-- Async facade fixture constructed with the usual test configuration. -/
def pA : AsyncDatabasePool := AsyncDatabasePool.make hLocal 5432 hLocal hLocal hLocal 1 10

/-- Sync world and facade after a successful initialization from the
empty world. -/
def initS : SyncWorld × SyncDatabasePool × Except Err Unit :=
  pS.initPool SyncWorld.empty true

/-- World component of the initialized sync fixture. -/
def wS : SyncWorld := initS.1

/-- Facade component of the initialized sync fixture. -/
def pS1 : SyncDatabasePool := initS.2.1

/-- Async world and facade after a successful initialization from the
empty world. -/
def initA : AsyncWorld × AsyncDatabasePool × Except Err Unit :=
  pA.initPool AsyncWorld.empty true

/-- World component of the initialized async fixture. -/
def wA : AsyncWorld := initA.1

/-- Facade component of the initialized async fixture. -/
def pA1 : AsyncDatabasePool := initA.2.1

/-! ## Round-trip proof for the structured-text codec -/

lemma stringMk_data (s : String) : String.mk s.data = s := by cases s; rfl

lemma char_not_surrogate (c : Char) : ¬ (55296 ≤ c.toNat ∧ c.toNat ≤ 57343) := by
  have h := c.valid
  have e : c.toNat = c.val.toNat := rfl
  rcases h with h | h <;> (intro hc; omega)

lemma char_lt_max (c : Char) : c.toNat < 1114112 := by
  have h := c.valid
  have e : c.toNat = c.val.toNat := rfl
  rcases h with h | h <;> omega

lemma char_ne_of_toNat_ne {a b : Char} (h : a.toNat ≠ b.toNat) : a ≠ b :=
  fun e => h (by rw [e])

lemma hexVal_hexDigitChar : ∀ d, d < 16 → hexVal? (hexDigitChar d) = some d := by decide

lemma hex4_digits (n : Nat) (h : n < 65536) :
    hex4 (hexDigitChar (n / 4096 % 16)) (hexDigitChar (n / 256 % 16))
      (hexDigitChar (n / 16 % 16)) (hexDigitChar (n % 16)) = some n := by
  have e1 : n / 4096 % 16 < 16 := Nat.mod_lt _ (by omega)
  have e2 : n / 256 % 16 < 16 := Nat.mod_lt _ (by omega)
  have e3 : n / 16 % 16 < 16 := Nat.mod_lt _ (by omega)
  have e4 : n % 16 < 16 := Nat.mod_lt _ (by omega)
  have recomb : 4096 * (n / 4096 % 16) + 256 * (n / 256 % 16) + 16 * (n / 16 % 16)
      + n % 16 = n := by omega
  simp only [hex4, hexVal_hexDigitChar _ e1, hexVal_hexDigitChar _ e2,
    hexVal_hexDigitChar _ e3, hexVal_hexDigitChar _ e4, recomb]

lemma readUEsc_bmp (n : Nat) (rest : List Char) (h1 : n < 65536)
    (h2 : ¬ (55296 ≤ n ∧ n ≤ 56319)) (h3 : ¬ (56320 ≤ n ∧ n ≤ 57343)) :
    readUEsc (hexDigitChar (n / 4096 % 16) :: hexDigitChar (n / 256 % 16)
      :: hexDigitChar (n / 16 % 16) :: hexDigitChar (n % 16) :: rest) =
      some (Char.ofNat n, rest) := by
  simp only [readUEsc, hex4_digits _ h1, readUEscWith]
  rw [if_neg h2, if_neg h3]

lemma readUEsc_pair_step1 (n : Nat) (rest : List Char) :
    readUEsc (hexDigitChar ((55296 + (n - 65536) / 1024) / 4096 % 16)
      :: hexDigitChar ((55296 + (n - 65536) / 1024) / 256 % 16)
      :: hexDigitChar ((55296 + (n - 65536) / 1024) / 16 % 16)
      :: hexDigitChar ((55296 + (n - 65536) / 1024) % 16)
      :: '\\' :: 'u' :: hexDigitChar ((56320 + (n - 65536) % 1024) / 4096 % 16)
      :: hexDigitChar ((56320 + (n - 65536) % 1024) / 256 % 16)
      :: hexDigitChar ((56320 + (n - 65536) % 1024) / 16 % 16)
      :: hexDigitChar ((56320 + (n - 65536) % 1024) % 16) :: rest) =
    readUEscWith (hex4 (hexDigitChar ((55296 + (n - 65536) / 1024) / 4096 % 16))
        (hexDigitChar ((55296 + (n - 65536) / 1024) / 256 % 16))
        (hexDigitChar ((55296 + (n - 65536) / 1024) / 16 % 16))
        (hexDigitChar ((55296 + (n - 65536) / 1024) % 16)))
      ('\\' :: 'u' :: hexDigitChar ((56320 + (n - 65536) % 1024) / 4096 % 16)
      :: hexDigitChar ((56320 + (n - 65536) % 1024) / 256 % 16)
      :: hexDigitChar ((56320 + (n - 65536) % 1024) / 16 % 16)
      :: hexDigitChar ((56320 + (n - 65536) % 1024) % 16) :: rest) := by
  simp only [readUEsc]


lemma readUEsc_pair_step2 (n : Nat) (rest : List Char) (hhi : 55296 + (n - 65536) / 1024 < 65536)
    (hiRange : 55296 ≤ 55296 + (n - 65536) / 1024 ∧ 55296 + (n - 65536) / 1024 ≤ 56319) :
    readUEscWith (hex4 (hexDigitChar ((55296 + (n - 65536) / 1024) / 4096 % 16))
        (hexDigitChar ((55296 + (n - 65536) / 1024) / 256 % 16))
        (hexDigitChar ((55296 + (n - 65536) / 1024) / 16 % 16))
        (hexDigitChar ((55296 + (n - 65536) / 1024) % 16)))
      ('\\' :: 'u' :: hexDigitChar ((56320 + (n - 65536) % 1024) / 4096 % 16)
      :: hexDigitChar ((56320 + (n - 65536) % 1024) / 256 % 16)
      :: hexDigitChar ((56320 + (n - 65536) % 1024) / 16 % 16)
      :: hexDigitChar ((56320 + (n - 65536) % 1024) % 16) :: rest) =
    readLowSurWith (55296 + (n - 65536) / 1024)
      (hex4 (hexDigitChar ((56320 + (n - 65536) % 1024) / 4096 % 16))
        (hexDigitChar ((56320 + (n - 65536) % 1024) / 256 % 16))
        (hexDigitChar ((56320 + (n - 65536) % 1024) / 16 % 16))
        (hexDigitChar ((56320 + (n - 65536) % 1024) % 16))) rest := by
  rw [hex4_digits _ hhi]
  simp only [readUEscWith]
  rw [if_pos hiRange]
  simp only [readLowSur]
  rw [if_pos (⟨trivial, trivial⟩ : True ∧ True)]


lemma readUEsc_pair_step3 (n : Nat) (rest : List Char) (h1 : 65536 ≤ n) (h2 : n < 1114112)
    (hlo : 56320 + (n - 65536) % 1024 < 65536)
    (loRange : 56320 ≤ 56320 + (n - 65536) % 1024 ∧ 56320 + (n - 65536) % 1024 ≤ 57343) :
    readLowSurWith (55296 + (n - 65536) / 1024)
      (hex4 (hexDigitChar ((56320 + (n - 65536) % 1024) / 4096 % 16))
        (hexDigitChar ((56320 + (n - 65536) % 1024) / 256 % 16))
        (hexDigitChar ((56320 + (n - 65536) % 1024) / 16 % 16))
        (hexDigitChar ((56320 + (n - 65536) % 1024) % 16))) rest =
    some (Char.ofNat n, rest) := by
  have comb : 65536 + 1024 * (55296 + (n - 65536) / 1024 - 55296)
      + (56320 + (n - 65536) % 1024 - 56320) = n := by omega
  rw [hex4_digits _ hlo]
  simp only [readLowSurWith]
  rw [if_pos loRange, comb]


lemma readUEsc_pair (n : Nat) (rest : List Char) (h1 : 65536 ≤ n) (h2 : n < 1114112) :
    readUEsc (hexDigitChar ((55296 + (n - 65536) / 1024) / 4096 % 16)
      :: hexDigitChar ((55296 + (n - 65536) / 1024) / 256 % 16)
      :: hexDigitChar ((55296 + (n - 65536) / 1024) / 16 % 16)
      :: hexDigitChar ((55296 + (n - 65536) / 1024) % 16)
      :: '\\' :: 'u' :: hexDigitChar ((56320 + (n - 65536) % 1024) / 4096 % 16)
      :: hexDigitChar ((56320 + (n - 65536) % 1024) / 256 % 16)
      :: hexDigitChar ((56320 + (n - 65536) % 1024) / 16 % 16)
      :: hexDigitChar ((56320 + (n - 65536) % 1024) % 16) :: rest) =
      some (Char.ofNat n, rest) := by
  have hm := Nat.mod_lt (n - 65536) (show 0 < 1024 by omega)
  have hd : (n - 65536) / 1024 ≤ 1023 := by omega
  have hhi : 55296 + (n - 65536) / 1024 < 65536 := by omega
  have hlo : 56320 + (n - 65536) % 1024 < 65536 := by omega
  have hiRange : 55296 ≤ 55296 + (n - 65536) / 1024 ∧ 55296 + (n - 65536) / 1024 ≤ 56319 := by
    omega
  have loRange : 56320 ≤ 56320 + (n - 65536) % 1024 ∧ 56320 + (n - 65536) % 1024 ≤ 57343 := by
    omega
  rw [readUEsc_pair_step1, readUEsc_pair_step2 n rest hhi hiRange,
    readUEsc_pair_step3 n rest h1 h2 hlo loRange]

lemma parseStrBody_backslash (f : Nat) (rest : List Char) :
    parseStrBody (Nat.succ f) ('\\' :: rest) =
      match readEsc rest with
      | some (d, rest2) => mapConsChar d (parseStrBody f rest2)
      | none => none := by
  simp [parseStrBody]

lemma parseStrBody_escQuote (f : Nat) (rest : List Char) :
    parseStrBody (Nat.succ f) (escChar '"' ++ rest) = mapConsChar '"' (parseStrBody f rest) := by
  rw [show escChar '"' ++ rest = '\\' :: '"' :: rest from rfl, parseStrBody_backslash]
  simp [readEsc]

lemma parseStrBody_escBackslash (f : Nat) (rest : List Char) :
    parseStrBody (Nat.succ f) (escChar '\\' ++ rest) =
      mapConsChar '\\' (parseStrBody f rest) := by
  rw [show escChar '\\' ++ rest = '\\' :: '\\' :: rest from rfl, parseStrBody_backslash]
  simp [readEsc]

lemma parseStrBody_escBS (f : Nat) (rest : List Char) :
    parseStrBody (Nat.succ f) (escChar (Char.ofNat 8) ++ rest) =
      mapConsChar (Char.ofNat 8) (parseStrBody f rest) := by
  rw [show escChar (Char.ofNat 8) ++ rest = '\\' :: 'b' :: rest from rfl,
    parseStrBody_backslash]
  simp [readEsc]

lemma parseStrBody_escTab (f : Nat) (rest : List Char) :
    parseStrBody (Nat.succ f) (escChar (Char.ofNat 9) ++ rest) =
      mapConsChar (Char.ofNat 9) (parseStrBody f rest) := by
  rw [show escChar (Char.ofNat 9) ++ rest = '\\' :: 't' :: rest from rfl,
    parseStrBody_backslash]
  simp [readEsc]

lemma parseStrBody_escNL (f : Nat) (rest : List Char) :
    parseStrBody (Nat.succ f) (escChar (Char.ofNat 10) ++ rest) =
      mapConsChar (Char.ofNat 10) (parseStrBody f rest) := by
  rw [show escChar (Char.ofNat 10) ++ rest = '\\' :: 'n' :: rest from rfl,
    parseStrBody_backslash]
  simp [readEsc]

lemma parseStrBody_escFF (f : Nat) (rest : List Char) :
    parseStrBody (Nat.succ f) (escChar (Char.ofNat 12) ++ rest) =
      mapConsChar (Char.ofNat 12) (parseStrBody f rest) := by
  rw [show escChar (Char.ofNat 12) ++ rest = '\\' :: 'f' :: rest from rfl,
    parseStrBody_backslash]
  simp [readEsc]

lemma parseStrBody_escCR (f : Nat) (rest : List Char) :
    parseStrBody (Nat.succ f) (escChar (Char.ofNat 13) ++ rest) =
      mapConsChar (Char.ofNat 13) (parseStrBody f rest) := by
  rw [show escChar (Char.ofNat 13) ++ rest = '\\' :: 'r' :: rest from rfl,
    parseStrBody_backslash]
  simp [readEsc]

lemma parseStrBody_escBmp (f : Nat) (c : Char) (rest : List Char)
    (hq : ¬ c = '"') (hb : ¬ c = '\\') (h8 : ¬ c.toNat = 8) (h9 : ¬ c.toNat = 9)
    (h10 : ¬ c.toNat = 10) (h12 : ¬ c.toNat = 12) (h13 : ¬ c.toNat = 13)
    (hesc : c.toNat < 32 ∨ 126 < c.toNat) (hbmp : c.toNat < 65536) :
    parseStrBody (Nat.succ f) (escChar c ++ rest) = mapConsChar c (parseStrBody f rest) := by
  simp only [escChar, if_neg hq, if_neg hb, if_neg h8, if_neg h9, if_neg h10,
    if_neg h12, if_neg h13, if_pos hesc]
  rw [if_pos hbmp]
  have hs := char_not_surrogate c
  have hb1 : ¬ (55296 ≤ c.toNat ∧ c.toNat ≤ 56319) := fun hx => hs ⟨hx.1, by omega⟩
  have hb2 : ¬ (56320 ≤ c.toNat ∧ c.toNat ≤ 57343) := fun hx => hs ⟨by omega, hx.2⟩
  simp only [uEsc, List.cons_append, List.nil_append]
  rw [parseStrBody_backslash]
  simp only [readEsc, if_true, readUEsc_bmp c.toNat rest hbmp hb1 hb2, Char.ofNat_toNat]

lemma readEsc_u (tail : List Char) : readEsc ('u' :: tail) = readUEsc tail := by
  simp [readEsc]

lemma parseStrBody_bs_some (f : Nat) (tail : List Char) (c : Char) (rest : List Char)
    (h : readEsc tail = some (c, rest)) :
    parseStrBody (Nat.succ f) ('\\' :: tail) = mapConsChar c (parseStrBody f rest) := by
  rw [parseStrBody_backslash, h]

lemma parseStrBody_escAstral (f : Nat) (c : Char) (rest : List Char)
    (hq : ¬ c = '"') (hb : ¬ c = '\\') (h8 : ¬ c.toNat = 8) (h9 : ¬ c.toNat = 9)
    (h10 : ¬ c.toNat = 10) (h12 : ¬ c.toNat = 12) (h13 : ¬ c.toNat = 13)
    (hesc : c.toNat < 32 ∨ 126 < c.toNat) (hbmp : ¬ c.toNat < 65536) :
    parseStrBody (Nat.succ f) (escChar c ++ rest) = mapConsChar c (parseStrBody f rest) := by
  have hlt := char_lt_max c
  have h65 : 65536 ≤ c.toNat := by omega
  have heq : escChar c ++ rest = '\\' :: 'u' :: hexDigitChar ((55296 + (c.toNat - 65536) / 1024) / 4096 % 16)
      :: hexDigitChar ((55296 + (c.toNat - 65536) / 1024) / 256 % 16)
      :: hexDigitChar ((55296 + (c.toNat - 65536) / 1024) / 16 % 16)
      :: hexDigitChar ((55296 + (c.toNat - 65536) / 1024) % 16)
      :: '\\' :: 'u' :: hexDigitChar ((56320 + (c.toNat - 65536) % 1024) / 4096 % 16)
      :: hexDigitChar ((56320 + (c.toNat - 65536) % 1024) / 256 % 16)
      :: hexDigitChar ((56320 + (c.toNat - 65536) % 1024) / 16 % 16)
      :: hexDigitChar ((56320 + (c.toNat - 65536) % 1024) % 16) :: rest := by
    simp only [escChar, if_neg hq, if_neg hb, if_neg h8, if_neg h9, if_neg h10,
      if_neg h12, if_neg h13, if_pos hesc]
    rw [if_neg hbmp]
    simp only [uEsc, List.cons_append, List.nil_append, List.append_assoc]
  rw [heq]
  exact parseStrBody_bs_some f _ c rest
    (by rw [readEsc_u, readUEsc_pair c.toNat rest h65 hlt, Char.ofNat_toNat])

lemma parseStrBody_escLit (f : Nat) (c : Char) (rest : List Char)
    (hq : ¬ c = '"') (hb : ¬ c = '\\') (h8 : ¬ c.toNat = 8) (h9 : ¬ c.toNat = 9)
    (h10 : ¬ c.toNat = 10) (h12 : ¬ c.toNat = 12) (h13 : ¬ c.toNat = 13)
    (hesc : ¬ (c.toNat < 32 ∨ 126 < c.toNat)) :
    parseStrBody (Nat.succ f) (escChar c ++ rest) = mapConsChar c (parseStrBody f rest) := by
  simp only [escChar, if_neg hq, if_neg hb, if_neg h8, if_neg h9, if_neg h10,
    if_neg h12, if_neg h13, if_neg hesc]
  have hlt : ¬ c.toNat < 32 := by omega
  simp only [List.singleton_append, parseStrBody, if_neg hq, if_neg hb, if_neg hlt]

lemma parseStrBody_escChar (f : Nat) (c : Char) (rest : List Char) :
    parseStrBody (Nat.succ f) (escChar c ++ rest) = mapConsChar c (parseStrBody f rest) := by
  by_cases hq : c = '"'
  · subst hq; exact parseStrBody_escQuote f rest
  by_cases hb : c = '\\'
  · subst hb; exact parseStrBody_escBackslash f rest
  by_cases h8 : c.toNat = 8
  · have hc : c = Char.ofNat 8 := by rw [← Char.ofNat_toNat c, h8]
    subst hc; exact parseStrBody_escBS f rest
  by_cases h9 : c.toNat = 9
  · have hc : c = Char.ofNat 9 := by rw [← Char.ofNat_toNat c, h9]
    subst hc; exact parseStrBody_escTab f rest
  by_cases h10 : c.toNat = 10
  · have hc : c = Char.ofNat 10 := by rw [← Char.ofNat_toNat c, h10]
    subst hc; exact parseStrBody_escNL f rest
  by_cases h12 : c.toNat = 12
  · have hc : c = Char.ofNat 12 := by rw [← Char.ofNat_toNat c, h12]
    subst hc; exact parseStrBody_escFF f rest
  by_cases h13 : c.toNat = 13
  · have hc : c = Char.ofNat 13 := by rw [← Char.ofNat_toNat c, h13]
    subst hc; exact parseStrBody_escCR f rest
  by_cases hesc : c.toNat < 32 ∨ 126 < c.toNat
  · by_cases hbmp : c.toNat < 65536
    · exact parseStrBody_escBmp f c rest hq hb h8 h9 h10 h12 h13 hesc hbmp
    · exact parseStrBody_escAstral f c rest hq hb h8 h9 h10 h12 h13 hesc hbmp
  · exact parseStrBody_escLit f c rest hq hb h8 h9 h10 h12 h13 hesc

lemma parseStrBody_encStr (s : List Char) : ∀ (f : Nat) (t : List Char), s.length ≤ f →
    parseStrBody (Nat.succ f) (encStr s ++ '"' :: t) = some (s, t) := by
  induction s with
  | nil =>
    intro f t _
    simp [encStr, parseStrBody]
  | cons c s ih =>
    intro f t hf
    match f with
    | 0 => exact absurd hf (by simp)
    | Nat.succ f2 =>
      rw [encStr, List.append_assoc, parseStrBody_escChar,
        ih f2 t (by simp only [List.length_cons] at hf; omega)]
      rfl

lemma parseStr_encStr (s t : List Char) :
    parseStr (encStr s ++ '"' :: t) = some (s, t) := by
  have hlen : s.length ≤ (encStr s ++ '"' :: t).length := by
    induction s with
    | nil => simp
    | cons c s ih =>
      have h1 : 1 ≤ (escChar c).length := by
        simp only [escChar]
        repeat' split
        all_goals simp [uEsc]
      simp only [encStr, List.cons_append, List.length_append, List.length_cons] at ih ⊢
      omega
  exact parseStrBody_encStr s (encStr s ++ '"' :: t).length t hlen

lemma digitChar_spec : ∀ d, d < 10 → ((digitChar d).isDigit = true ∧
    isWsChar (digitChar d) = false ∧ (digitChar d).toNat = 48 + d) := by decide

lemma digitChar_ne : ∀ d, d < 10 → (digitChar d ≠ 'n' ∧ digitChar d ≠ 't' ∧
    digitChar d ≠ 'f' ∧ digitChar d ≠ '"' ∧ digitChar d ≠ '[' ∧ digitChar d ≠ lbrace ∧
    digitChar d ≠ '-' ∧ digitChar d ≠ ']' ∧ digitChar d ≠ rbrace) := by decide

lemma natDigitsAux_all (f : Nat) : ∀ n, n < f →
    ∀ c ∈ natDigitsAux f n, ∃ d, d < 10 ∧ c = digitChar d := by
  induction f with
  | zero => intro n hn; omega
  | succ f ih =>
    intro n hn c hc
    by_cases h10 : n < 10
    · rw [natDigitsAux, if_pos h10] at hc
      simp at hc
      exact ⟨n, h10, hc⟩
    · rw [natDigitsAux, if_neg h10] at hc
      rcases List.mem_append.mp hc with h | h
      · exact ih (n / 10) (by omega) c h
      · simp at h
        exact ⟨n % 10, by omega, h⟩

lemma natDigitsAux_shape (f : Nat) : ∀ n, n < f →
    ∃ d ds, natDigitsAux f n = digitChar d :: ds ∧ d < 10 := by
  induction f with
  | zero => intro n hn; omega
  | succ f ih =>
    intro n hn
    by_cases h10 : n < 10
    · exact ⟨n, [], by rw [natDigitsAux, if_pos h10], h10⟩
    · obtain ⟨d, ds, hds, hd⟩ := ih (n / 10) (by omega)
      exact ⟨d, ds ++ [digitChar (n % 10)], by rw [natDigitsAux, if_neg h10, hds]; rfl, hd⟩

lemma digitsVal_append (acc : Nat) (ds : List Char) (c : Char) :
    digitsVal acc (ds ++ [c]) = 10 * digitsVal acc ds + (c.toNat - 48) := by
  simp [digitsVal, List.foldl_append]

lemma natDigitsAux_val (f : Nat) : ∀ n acc, n < f →
    digitsVal acc (natDigitsAux f n) = acc * 10 ^ (natDigitsAux f n).length + n := by
  induction f with
  | zero => intro n acc hn; omega
  | succ f ih =>
    intro n acc hn
    by_cases h10 : n < 10
    · rw [natDigitsAux, if_pos h10]
      have := (digitChar_spec n h10).2.2
      simp [digitsVal]
      omega
    · rw [natDigitsAux, if_neg h10]
      rw [digitsVal_append, ih (n / 10) acc (by omega)]
      have hc := (digitChar_spec (n % 10) (by omega)).2.2
      have hmod : 10 * (n / 10) + n % 10 = n := by omega
      have hlen : (natDigitsAux f (n / 10) ++ [digitChar (n % 10)]).length =
          (natDigitsAux f (n / 10)).length + 1 := by simp
      rw [hlen, hc]
      have hd : (48 + n % 10) - 48 = n % 10 := by omega
      rw [hd, pow_succ]
      have : 10 * (acc * 10 ^ (natDigitsAux f (n / 10)).length + n / 10) =
          acc * (10 ^ (natDigitsAux f (n / 10)).length * 10) + 10 * (n / 10) := by ring
      omega

lemma natDigits_val (n : Nat) : digitsVal 0 (natDigits n) = n := by
  have := natDigitsAux_val (n + 1) n 0 (by omega)
  simpa [natDigits] using this

lemma natDigits_all (n : Nat) : ∀ c ∈ natDigits n, ∃ d, d < 10 ∧ c = digitChar d :=
  natDigitsAux_all (n + 1) n (by omega)

lemma natDigits_shape (n : Nat) : ∃ d ds, natDigits n = digitChar d :: ds ∧ d < 10 :=
  natDigitsAux_shape (n + 1) n (by omega)

lemma parseDigitsAcc_append (ds : List Char) : ∀ acc t,
    (∀ c ∈ ds, ∃ d, d < 10 ∧ c = digitChar d) → headIsDigit t = false →
    parseDigitsAcc acc (ds ++ t) = (digitsVal acc ds, t) := by
  induction ds with
  | nil =>
    intro acc t _ ht
    match t with
    | [] => simp [parseDigitsAcc, digitsVal]
    | c :: t2 =>
      simp only [headIsDigit] at ht
      simp [parseDigitsAcc, ht, digitsVal]
  | cons c ds ih =>
    intro acc t hall ht
    obtain ⟨d, hd, hcd⟩ := hall c (by simp)
    subst hcd
    have hspec := digitChar_spec d hd
    rw [List.cons_append, parseDigitsAcc, if_pos hspec.1]
    rw [ih _ t (fun c hc => hall c (by simp [hc])) ht]
    rfl

lemma parseNat_natDigits (n : Nat) (t : List Char) (ht : headIsDigit t = false) :
    parseNat (natDigits n ++ t) = some (n, t) := by
  obtain ⟨d, ds, hds, hd⟩ := natDigits_shape n
  have hall := natDigits_all n
  rw [hds] at hall ⊢
  have hspec := digitChar_spec d hd
  rw [List.cons_append, parseNat, if_pos hspec.1]
  rw [parseDigitsAcc_append ds _ t (fun c hc => hall c (by simp [hc])) ht]
  have hv : digitsVal ((digitChar d).toNat - 48) ds = n := by
    have := natDigits_val n
    rw [hds] at this
    simpa [digitsVal] using this
  rw [hv]

lemma numExt_false (t : List Char) (h : numExt t = false) :
    headIsDigit t = false ∧ numCont t = false := by
  match t with
  | [] => exact ⟨rfl, rfl⟩
  | c :: t2 =>
    simp only [numExt, Bool.or_eq_false_iff] at h
    refine ⟨h.1.1.1, ?_⟩
    simp only [numCont, Bool.or_eq_false_iff]
    exact ⟨⟨h.1.1.2, h.1.2⟩, h.2⟩

lemma parseIntTok_intDigits (i : Int) (t : List Char) (hnum : numExt t = false) :
    parseIntTok (intDigits i ++ t) = some (i, t) := by
  obtain ⟨hdig, hcont⟩ := numExt_false t hnum
  by_cases hneg : i < 0
  · rw [intDigits, if_pos hneg, List.cons_append, parseIntTok]
    rw [if_pos rfl, parseNat_natDigits _ t hdig]
    simp only [hcont, Bool.false_eq_true, if_false]
    have : -(((-i).toNat : Nat) : Int) = i := by omega
    rw [this]
  · rw [intDigits, if_neg hneg]
    obtain ⟨d, ds, hds, hd⟩ := natDigits_shape i.toNat
    rw [hds, List.cons_append, parseIntTok]
    rw [if_neg ((digitChar_ne d hd).2.2.2.2.2.2.1)]
    rw [← List.cons_append, ← hds, parseNat_natDigits _ t hdig]
    simp only [hcont, Bool.false_eq_true, if_false]
    have : ((i.toNat : Nat) : Int) = i := by omega
    rw [this]

lemma skipWs_not (c : Char) (t : List Char) (h : isWsChar c = false) :
    skipWs (c :: t) = c :: t := by
  rw [skipWs, if_neg (by simp [h])]

lemma skipWs_space (t : List Char) : skipWs (' ' :: t) = skipWs t := by
  rw [skipWs, if_pos (by decide)]

lemma parseVal_space (f : Nat) (u : List Char) :
    parseVal f (' ' :: u) = parseVal f u := by
  match f with
  | 0 => rfl
  | Nat.succ f2 => rw [parseVal, parseVal, skipWs_space]

lemma parseElems_space (f : Nat) (u : List Char) :
    parseElems f (' ' :: u) = parseElems f u := by
  match f with
  | 0 => rfl
  | Nat.succ f2 => rw [parseElems, parseElems, parseVal_space]

lemma parseMembers_space (f : Nat) (u : List Char) :
    parseMembers f (' ' :: u) = parseMembers f u := by
  match f with
  | 0 => rfl
  | Nat.succ f2 => rw [parseMembers, parseMembers, skipWs_space]

lemma encVal_head (v : Json) : ∃ c cs, encVal v = c :: cs ∧ isWsChar c = false ∧ c ≠ ']' := by
  match v with
  | Json.null => exact ⟨'n', ['u', 'l', 'l'], by rw [encVal], by decide, by decide⟩
  | Json.bool true =>
    exact ⟨'t', ['r', 'u', 'e'], by simp [encVal], by decide, by decide⟩
  | Json.bool false =>
    exact ⟨'f', ['a', 'l', 's', 'e'], by simp [encVal], by decide, by decide⟩
  | Json.int i =>
    by_cases hneg : i < 0
    · exact ⟨'-', natDigits (-i).toNat, by rw [encVal, intDigits, if_pos hneg],
        by decide, by decide⟩
    · obtain ⟨d, ds, hds, hd⟩ := natDigits_shape i.toNat
      have spec := digitChar_spec d hd
      have hne := digitChar_ne d hd
      exact ⟨digitChar d, ds, by rw [encVal, intDigits, if_neg hneg, hds], spec.2.1,
        hne.2.2.2.2.2.2.2.1⟩
  | Json.str s =>
    exact ⟨'"', encStr s.data ++ ['"'], by rw [encVal], by decide, by decide⟩
  | Json.arr [] => exact ⟨'[', [']'], by rw [encVal], by decide, by decide⟩
  | Json.arr (x :: r) =>
    exact ⟨'[', encVal x ++ encElemsRest r ++ [']'], by rw [encVal], by decide, by decide⟩
  | Json.obj [] => exact ⟨lbrace, [rbrace], by rw [encVal], by decide, by decide⟩
  | Json.obj ((k, v2) :: r) =>
    exact ⟨lbrace, encMember k v2 ++ encMembersRest r ++ [rbrace], by rw [encVal],
      by decide, by decide⟩

lemma encVal_len_pos (v : Json) : 0 < (encVal v).length := by
  obtain ⟨c, cs, hx, -, -⟩ := encVal_head v
  rw [hx]; simp

lemma numExt_rsq (u : List Char) : numExt (']' :: u) = false := rfl

lemma numExt_comma (u : List Char) : numExt (',' :: u) = false := rfl

lemma numExt_rbrace (u : List Char) : numExt (rbrace :: u) = false := rfl

lemma parse_enc (fuel : Nat) :
    (∀ v t, (encVal v).length < fuel → numExt t = false →
      parseVal fuel (encVal v ++ t) = some (v, t)) ∧
    (∀ xs t, xs ≠ [] → (encItems xs).length + 1 < fuel →
      parseElems fuel (encItems xs ++ ']' :: t) = some (xs, t)) ∧
    (∀ ms t, ms ≠ [] → (encMItems ms).length + 1 < fuel →
      parseMembers fuel (encMItems ms ++ rbrace :: t) = some (ms, t)) := by
  induction fuel with
  | zero =>
    exact ⟨fun v t h _ => absurd h (by omega), fun xs t _ h => absurd h (by omega),
      fun ms t _ h => absurd h (by omega)⟩
  | succ f ih =>
    obtain ⟨ihA, ihB, ihC⟩ := ih
    refine ⟨?_, ?_, ?_⟩
    · intro v t hlen hnum
      match v with
      | Json.null =>
        rw [show encVal Json.null = ['n', 'u', 'l', 'l'] from by rw [encVal]]
        rw [List.cons_append, parseVal, skipWs_not _ _ (by decide)]
        simp [expectChars]
      | Json.bool true =>
        rw [show encVal (Json.bool true) = ['t', 'r', 'u', 'e'] from by simp [encVal]]
        rw [List.cons_append, parseVal, skipWs_not _ _ (by decide)]
        simp [expectChars]
      | Json.bool false =>
        rw [show encVal (Json.bool false) = ['f', 'a', 'l', 's', 'e'] from by simp [encVal]]
        rw [List.cons_append, parseVal, skipWs_not _ _ (by decide)]
        simp [expectChars]
      | Json.str s =>
        rw [show encVal (Json.str s) = '"' :: (encStr s.data ++ ['"']) from by rw [encVal]]
        rw [List.cons_append, parseVal, skipWs_not _ _ (by decide)]
        rw [show (encStr s.data ++ ['"']) ++ t = encStr s.data ++ '"' :: t from by simp]
        simp [parseStr_encStr, stringMk_data]
      | Json.int i =>
        rw [show encVal (Json.int i) = intDigits i from by rw [encVal]]
        by_cases hneg : i < 0
        · have key : parseIntTok ('-' :: (natDigits (-i).toNat ++ t)) = some (i, t) := by
            rw [show ('-' : Char) :: (natDigits (-i).toNat ++ t) = intDigits i ++ t from by
              rw [intDigits, if_pos hneg]; rfl]
            exact parseIntTok_intDigits i t hnum
          rw [intDigits, if_pos hneg, List.cons_append, parseVal,
            skipWs_not _ _ (by decide)]
          simp [key, lbrace]
        · obtain ⟨d, ds, hds, hd⟩ := natDigits_shape i.toNat
          have hspec := digitChar_spec d hd
          have hne := digitChar_ne d hd
          have key : parseIntTok (digitChar d :: (ds ++ t)) = some (i, t) := by
            rw [show digitChar d :: (ds ++ t) = intDigits i ++ t from by
              rw [intDigits, if_neg hneg, hds]; rfl]
            exact parseIntTok_intDigits i t hnum
          rw [intDigits, if_neg hneg, hds, List.cons_append, parseVal,
            skipWs_not _ _ hspec.2.1]
          simp [key, hne.1, hne.2.1, hne.2.2.1, hne.2.2.2.1, hne.2.2.2.2.1,
            hne.2.2.2.2.2.1]
      | Json.arr [] =>
        rw [show encVal (Json.arr []) = ['[', ']'] from by rw [encVal]]
        rw [List.cons_append, parseVal, skipWs_not _ _ (by decide)]
        simp [skipWs_not _ _ (show isWsChar ']' = false from by decide), lbrace]
      | Json.arr (x :: rest) =>
        rw [show encVal (Json.arr (x :: rest)) =
          '[' :: (encVal x ++ encElemsRest rest ++ [']']) from by rw [encVal]]
        rw [List.cons_append, parseVal, skipWs_not _ _ (by decide)]
        obtain ⟨c0, cs0, hx, hws0, hne0⟩ := encVal_head x
        simp only [reduceIte]
        rw [show (encVal x ++ encElemsRest rest ++ [']']) ++ t =
          c0 :: (cs0 ++ (encElemsRest rest ++ ']' :: t)) from by rw [hx]; simp]
        rw [skipWs_not _ _ hws0]
        have hfuel : (encItems (x :: rest)).length + 1 < f := by
          have h2 : (encVal (Json.arr (x :: rest))).length =
              (encItems (x :: rest)).length + 2 := by
            rw [show encVal (Json.arr (x :: rest)) =
              '[' :: (encVal x ++ encElemsRest rest ++ [']']) from by rw [encVal], encItems]
            simp
            omega
          omega
        have helems : parseElems f (c0 :: (cs0 ++ (encElemsRest rest ++ ']' :: t))) =
            some (x :: rest, t) := by
          rw [show c0 :: (cs0 ++ (encElemsRest rest ++ ']' :: t)) =
            encItems (x :: rest) ++ ']' :: t from by rw [encItems, hx]; simp]
          exact ihB (x :: rest) t (by simp) (by omega)
        simp [hne0, helems]
      | Json.obj [] =>
        rw [show encVal (Json.obj []) = [lbrace, rbrace] from by rw [encVal]]
        rw [List.cons_append, parseVal, skipWs_not _ _ (by decide)]
        have hlb : lbrace ≠ 'n' ∧ lbrace ≠ 't' ∧ lbrace ≠ 'f' ∧ lbrace ≠ '"' ∧
            lbrace ≠ '[' := by decide
        simp [hlb.1, hlb.2.1, hlb.2.2.1, hlb.2.2.2.1, hlb.2.2.2.2,
          skipWs_not _ _ (show isWsChar rbrace = false from by decide)]
      | Json.obj ((k, v2) :: rest) =>
        rw [show encVal (Json.obj ((k, v2) :: rest)) =
          lbrace :: (encMember k v2 ++ encMembersRest rest ++ [rbrace]) from by rw [encVal]]
        rw [List.cons_append, parseVal, skipWs_not _ _ (by decide)]
        have hlb : lbrace ≠ 'n' ∧ lbrace ≠ 't' ∧ lbrace ≠ 'f' ∧ lbrace ≠ '"' ∧
            lbrace ≠ '[' := by decide
        simp only [eq_false hlb.1, eq_false hlb.2.1, eq_false hlb.2.2.1,
          eq_false hlb.2.2.2.1, eq_false hlb.2.2.2.2, if_false, eq_self_iff_true, if_true]
        rw [show (encMember k v2 ++ encMembersRest rest ++ [rbrace]) ++ t =
          '"' :: (encStr k.data ++ '"' :: ':' :: ' '
            :: (encVal v2 ++ (encMembersRest rest ++ rbrace :: t))) from by
          rw [encMember]; simp]
        rw [skipWs_not _ _ (by decide)]
        have hfuel : (encMItems ((k, v2) :: rest)).length + 1 < f := by
          have h2 : (encVal (Json.obj ((k, v2) :: rest))).length =
              (encMItems ((k, v2) :: rest)).length + 2 := by
            rw [show encVal (Json.obj ((k, v2) :: rest)) =
              lbrace :: (encMember k v2 ++ encMembersRest rest ++ [rbrace]) from by
                rw [encVal], encMItems]
            simp
            omega
          omega
        have hmem : parseMembers f ('"' :: (encStr k.data ++ '"' :: ':' :: ' '
            :: (encVal v2 ++ (encMembersRest rest ++ rbrace :: t)))) =
            some ((k, v2) :: rest, t) := by
          rw [show ('"' : Char) :: (encStr k.data ++ '"' :: ':' :: ' '
              :: (encVal v2 ++ (encMembersRest rest ++ rbrace :: t))) =
            encMItems ((k, v2) :: rest) ++ rbrace :: t from by
              rw [encMItems, encMember]; simp]
          exact ihC _ t (by simp) (by omega)
        simp [hmem, show ('"' : Char) ≠ rbrace from by decide]
    · intro xs t hne hlen
      match xs with
      | [] => exact absurd rfl hne
      | x :: rest =>
        rw [parseElems]
        match rest with
        | [] =>
          have hlenx : (encVal x).length < f := by
            have h2 : (encItems [x]).length = (encVal x).length := by
              rw [encItems, encElemsRest]; simp
            omega
          rw [show encItems [x] ++ ']' :: t = encVal x ++ (']' :: t) from by
            rw [encItems, encElemsRest]; simp]
          rw [ihA x (']' :: t) hlenx (numExt_rsq t)]
          simp [skipWs_not _ _ (show isWsChar ']' = false from by decide)]
        | y :: r =>
          have hlens : (encItems (x :: y :: r)).length =
              (encVal x).length + 2 + (encItems (y :: r)).length := by
            rw [encItems, encElemsRest, encItems]; simp; omega
          have hpos := encVal_len_pos x
          have hlenx : (encVal x).length < f := by omega
          rw [show encItems (x :: y :: r) ++ ']' :: t =
            encVal x ++ (',' :: ' ' :: (encItems (y :: r) ++ ']' :: t)) from by
              rw [encItems, encElemsRest, encItems]; simp]
          rw [ihA x _ hlenx (numExt_comma _)]
          have hrec : parseElems f (' ' :: (encItems (y :: r) ++ ']' :: t)) =
              some (y :: r, t) := by
            rw [parseElems_space]
            exact ihB (y :: r) t (by simp) (by omega)
          simp [skipWs_not _ _ (show isWsChar ',' = false from by decide), hrec]
    · intro ms t hne hlen
      match ms with
      | [] => exact absurd rfl hne
      | (k, v2) :: rest =>
        rw [parseMembers]
        rw [show encMItems ((k, v2) :: rest) ++ rbrace :: t =
          '"' :: (encStr k.data ++ '"' :: ':' :: ' '
            :: (encVal v2 ++ (encMembersRest rest ++ rbrace :: t))) from by
          rw [encMItems, encMember]; simp]
        rw [skipWs_not _ _ (by decide)]
        have hlens : (encMItems ((k, v2) :: rest)).length =
            (encStr k.data).length + 4 + (encVal v2).length +
              (encMembersRest rest).length := by
          rw [encMItems, encMember]; simp; omega
        have htail : numExt (encMembersRest rest ++ rbrace :: t) = false := by
          match rest with
          | [] => rw [encMembersRest]; simp [numExt_rbrace]
          | (k2, w) :: r => rw [encMembersRest]; simp [numExt_comma]
        have hv : parseVal f (' ' :: (encVal v2 ++ (encMembersRest rest ++ rbrace :: t))) =
            some (v2, encMembersRest rest ++ rbrace :: t) := by
          rw [parseVal_space]
          exact ihA v2 _ (by omega) htail
        match rest with
        | [] =>
          have hone : parseStr (encStr k.data ++ '"' :: (':' :: ' '
              :: (encVal v2 ++ (encMembersRest [] ++ rbrace :: t)))) =
              some (k.data, ':' :: ' ' :: (encVal v2 ++ (encMembersRest [] ++ rbrace :: t))) :=
            parseStr_encStr k.data _
          rw [show encMembersRest ([] : List (String × Json)) = [] from by rw [encMembersRest]] at hone hv ⊢
          simp only [List.nil_append] at hone hv ⊢
          simp [hone, skipWs_not _ _ (show isWsChar ':' = false from by decide), hv,
            skipWs_not _ _ (show isWsChar rbrace = false from by decide),
            show rbrace ≠ ',' from by decide, stringMk_data]
        | (k2, w) :: r =>
          have hone : parseStr (encStr k.data ++ '"' :: (':' :: ' '
              :: (encVal v2 ++ (encMembersRest ((k2, w) :: r) ++ rbrace :: t)))) =
              some (k.data, ':' :: ' '
                :: (encVal v2 ++ (encMembersRest ((k2, w) :: r) ++ rbrace :: t))) :=
            parseStr_encStr k.data _
          have hmrest : encMembersRest ((k2, w) :: r) ++ rbrace :: t =
              ',' :: ' ' :: (encMItems ((k2, w) :: r) ++ rbrace :: t) := by
            rw [encMembersRest, encMItems]; simp
          have hrec : parseMembers f (' ' :: (encMItems ((k2, w) :: r) ++ rbrace :: t)) =
              some ((k2, w) :: r, t) := by
            rw [parseMembers_space]
            have hlens2 : (encMItems ((k2, w) :: r)).length + 2 =
                (encMembersRest ((k2, w) :: r)).length := by
              rw [encMembersRest, encMItems]; simp
            exact ihC ((k2, w) :: r) t (by simp) (by omega)
          rw [hmrest] at hone hv ⊢
          simp [hone, skipWs_not _ _ (show isWsChar ':' = false from by decide), hv,
            skipWs_not _ _ (show isWsChar ',' = false from by decide), hrec, stringMk_data]

lemma loads_dumps (v : Json) : Json.loads (Json.dumps v) = some v := by
  have h := (parse_enc ((encVal v).length + 1)).1 v [] (by omega) rfl
  rw [show encVal v ++ ([] : List Char) = encVal v from by simp] at h
  have hd : (Json.dumps v).data = encVal v := rfl
  rw [Json.loads, hd, h]
  simp [skipWs]

/-! ## World bookkeeping lemmas -/

lemma SyncWorld.get_of_lt (w : SyncWorld) (idx : Nat) (h : idx < w.pools.length) :
    ∃ r, w.pools.get? idx = some r := by
  cases hg : w.pools.get? idx with
  | none => exact absurd (List.get?_eq_none.mp hg) (by omega)
  | some r => exact ⟨r, rfl⟩

lemma SyncWorld.closedAt_closeAt (w : SyncWorld) (idx : Nat) (h : idx < w.pools.length) :
    (w.closeAt idx).closedAt idx = true := by
  obtain ⟨r, hr⟩ := w.get_of_lt idx h
  rw [SyncWorld.closeAt, hr]
  rw [SyncWorld.closedAt]
  rw [show ({ pools := w.pools.set idx { r with closed := true } } : SyncWorld).pools =
    w.pools.set idx { r with closed := true } from rfl]
  rw [List.get?_set_eq_of_lt _ h]

lemma AsyncWorld.get_of_lt_a (w : AsyncWorld) (idx : Nat) (h : idx < w.pools.length) :
    ∃ r, w.pools.get? idx = some r := by
  cases hg : w.pools.get? idx with
  | none => exact absurd (List.get?_eq_none.mp hg) (by omega)
  | some r => exact ⟨r, rfl⟩

lemma AsyncWorld.closedAt_closeAt_a (w : AsyncWorld) (idx : Nat) (h : idx < w.pools.length) :
    (w.closeAt idx).closedAt idx = true := by
  obtain ⟨r, hr⟩ := w.get_of_lt_a idx h
  rw [AsyncWorld.closeAt, hr]
  rw [AsyncWorld.closedAt]
  rw [show ({ pools := w.pools.set idx { r with closed := true } } : AsyncWorld).pools =
    w.pools.set idx { r with closed := true } from rfl]
  rw [List.get?_set_eq_of_lt _ h]

/-! ## Claim theorems -/

lemma sync_uninit_ops_fail (w : SyncWorld) (p : SyncDatabasePool) (h : p.pool = none) :
    p.acquire w = Except.error Err.notInitialized ∧
    p.transaction w = Except.error Err.notInitialized ∧
    ∀ (V : Type) (db : SyncDriver V) (q : String) (args : List V)
      (argsL : List (List V)) (col : Int) (t : Option ℚ),
      p.execute w db q args t = Except.error Err.notInitialized ∧
      p.executemany w db q argsL t = Except.error Err.notInitialized ∧
      p.fetch w db q args t = Except.error Err.notInitialized ∧
      p.fetchrow w db q args t = Except.error Err.notInitialized ∧
      p.fetchval w db q args col t = Except.error Err.notInitialized := by
  refine ⟨?_, ?_, ?_⟩
  · rw [SyncDatabasePool.acquire, h]
  · rw [SyncDatabasePool.transaction, SyncDatabasePool.acquire, h]
  · intro V db q args argsL col t
    have ha : p.acquire w = Except.error Err.notInitialized := by
      rw [SyncDatabasePool.acquire, h]
    refine ⟨?_, ?_, ?_, ?_, ?_⟩ <;>
      simp [SyncDatabasePool.execute, SyncDatabasePool.executemany,
        SyncDatabasePool.fetch, SyncDatabasePool.fetchrow,
        SyncDatabasePool.fetchval, ha]

lemma async_uninit_ops_fail (w : AsyncWorld) (p : AsyncDatabasePool) (h : p.pool = none) :
    p.acquire w = Except.error Err.notInitialized ∧
    p.transaction w = Except.error Err.notInitialized ∧
    ∀ (V : Type) (db : AsyncDriver V) (q : String) (args : List V)
      (argsL : List (List V)) (col : Int) (t : Option ℚ),
      p.execute w db q args t = Except.error Err.notInitialized ∧
      p.executemany w db q argsL t = Except.error Err.notInitialized ∧
      p.fetch w db q args t = Except.error Err.notInitialized ∧
      p.fetchrow w db q args t = Except.error Err.notInitialized ∧
      p.fetchval w db q args col t = Except.error Err.notInitialized := by
  refine ⟨?_, ?_, ?_⟩
  · rw [AsyncDatabasePool.acquire, h]
  · rw [AsyncDatabasePool.transaction, AsyncDatabasePool.acquire, h]
  · intro V db q args argsL col t
    have ha : p.acquire w = Except.error Err.notInitialized := by
      rw [AsyncDatabasePool.acquire, h]
    refine ⟨?_, ?_, ?_, ?_, ?_⟩ <;>
      simp [AsyncDatabasePool.execute, AsyncDatabasePool.executemany,
        AsyncDatabasePool.fetch, AsyncDatabasePool.fetchrow,
        AsyncDatabasePool.fetchval, ha]

/-- C2: on every facade instance whose pool handle is absent (initialize
not called), acquire — and every query operation that goes through it,
including the transactional scope — fails immediately with the
not-initialized usage error, on both the synchronous and the concurrent
facade, independently of the world of pools and of the driver (the
underlying pool is never touched). -/
theorem c2_uninitialized_ops_fail :
    (∀ (w : SyncWorld) (p : SyncDatabasePool), p.pool = none →
      p.acquire w = Except.error Err.notInitialized ∧
      p.transaction w = Except.error Err.notInitialized ∧
      ∀ (V : Type) (db : SyncDriver V) (q : String) (args : List V)
        (argsL : List (List V)) (col : Int) (t : Option ℚ),
        p.execute w db q args t = Except.error Err.notInitialized ∧
        p.executemany w db q argsL t = Except.error Err.notInitialized ∧
        p.fetch w db q args t = Except.error Err.notInitialized ∧
        p.fetchrow w db q args t = Except.error Err.notInitialized ∧
        p.fetchval w db q args col t = Except.error Err.notInitialized) ∧
    (∀ (w : AsyncWorld) (p : AsyncDatabasePool), p.pool = none →
      p.acquire w = Except.error Err.notInitialized ∧
      p.transaction w = Except.error Err.notInitialized ∧
      ∀ (V : Type) (db : AsyncDriver V) (q : String) (args : List V)
        (argsL : List (List V)) (col : Int) (t : Option ℚ),
        p.execute w db q args t = Except.error Err.notInitialized ∧
        p.executemany w db q argsL t = Except.error Err.notInitialized ∧
        p.fetch w db q args t = Except.error Err.notInitialized ∧
        p.fetchrow w db q args t = Except.error Err.notInitialized ∧
        p.fetchval w db q args col t = Except.error Err.notInitialized) :=
  ⟨fun w p h => sync_uninit_ops_fail w p h, fun w p h => async_uninit_ops_fail w p h⟩

/-- Witness for C2: concrete freshly constructed facades fail acquire and
execute with the not-initialized error. -/
theorem c2_witness :
    pS.acquire SyncWorld.empty = Except.error Err.notInitialized ∧
    pA.acquire AsyncWorld.empty = Except.error Err.notInitialized ∧
    pS.execute SyncWorld.empty emptyDriverS qSel [] none =
      Except.error Err.notInitialized := by
  have h := c2_uninitialized_ops_fail
  exact ⟨(h.1 SyncWorld.empty pS rfl).1, (h.2 AsyncWorld.empty pA rfl).1,
    ((h.1 SyncWorld.empty pS rfl).2.2 Nat emptyDriverS qSel [] [] 0 none).1⟩

/-- C4: on the synchronous facade the timeout parameter of execute,
executemany, fetch, fetchrow and fetchval is accepted but has no effect:
two calls identical except for the timeout argument have the same
behaviour and result, for every facade state, driver, query and
arguments. -/
theorem c4_sync_timeout_no_effect :
    ∀ (V : Type) (w : SyncWorld) (db : SyncDriver V) (p : SyncDatabasePool) (q : String)
      (args : List V) (argsL : List (List V)) (col : Int) (t1 t2 : Option ℚ),
      p.execute w db q args t1 = p.execute w db q args t2 ∧
      p.executemany w db q argsL t1 = p.executemany w db q argsL t2 ∧
      p.fetch w db q args t1 = p.fetch w db q args t2 ∧
      p.fetchrow w db q args t1 = p.fetchrow w db q args t2 ∧
      p.fetchval w db q args col t1 = p.fetchval w db q args col t2 :=
  fun _ _ _ _ _ _ _ _ _ _ => ⟨rfl, rfl, rfl, rfl, rfl⟩

/-- C3: on the concurrent facade the timeout parameter of every query
method takes effect: a positive deadline is carried unchanged to the
connection-level call for all five methods, and a statement whose
execution time exceeds its deadline fails with the timeout error instead
of returning its result. -/
theorem c3_async_timeout_effective :
    ∀ (V : Type) (w : AsyncWorld) (db : AsyncDriver V) (p : AsyncDatabasePool) (idx : Nat)
      (q : String) (args : List V) (argsL : List (List V)) (col : Int) (t : ℚ),
      p.pool = some idx → w.closedAt idx = false → 0 < t →
      (p.execute w db q args (some t) = connExecute db q args (some t) ∧
       p.executemany w db q argsL (some t) = connExecutemany db q argsL (some t) ∧
       p.fetch w db q args (some t) = connFetch db q args (some t) ∧
       p.fetchrow w db q args (some t) = connFetchrow db q args (some t) ∧
       p.fetchval w db q args col (some t) = connFetchval db q args col (some t)) ∧
      (t < db.execTime q args →
       p.execute w db q args (some t) = Except.error Err.timeout ∧
       p.fetch w db q args (some t) = Except.error Err.timeout ∧
       p.fetchrow w db q args (some t) = Except.error Err.timeout ∧
       p.fetchval w db q args col (some t) = Except.error Err.timeout) ∧
      (t < db.execTimeMany q argsL →
       p.executemany w db q argsL (some t) = Except.error Err.timeout) := by
  intro V w db p idx q args argsL col t h1 h2 h3
  have hacq : p.acquire w = Except.ok () := by
    simp [AsyncDatabasePool.acquire, h1, h2]
  have hq : pyOrQ (some t) 60 = t := by
    rw [pyOrQ, if_neg (by intro h0; rw [h0] at h3; exact lt_irrefl 0 h3)]
  have he : p.execute w db q args (some t) = connExecute db q args (some t) := by
    rw [AsyncDatabasePool.execute, hacq, hq]
  have hem : p.executemany w db q argsL (some t) = connExecutemany db q argsL (some t) := by
    rw [AsyncDatabasePool.executemany, hacq, hq]
  have hf : p.fetch w db q args (some t) = connFetch db q args (some t) := by
    rw [AsyncDatabasePool.fetch, hacq]
  have hfr : p.fetchrow w db q args (some t) = connFetchrow db q args (some t) := by
    rw [AsyncDatabasePool.fetchrow, hacq]
  have hfv : p.fetchval w db q args col (some t) = connFetchval db q args col (some t) := by
    rw [AsyncDatabasePool.fetchval, hacq]
  refine ⟨⟨he, hem, hf, hfr, hfv⟩, ?_, ?_⟩
  · intro hslow
    have hto : connTimedOut db q args (some t) = true := by
      rw [connTimedOut]
      exact decide_eq_true hslow
    refine ⟨?_, ?_, ?_, ?_⟩
    · rw [he, connExecute, hto]; rfl
    · rw [hf, connFetch, hto]; rfl
    · rw [hfr, connFetchrow, hto]; rfl
    · rw [hfv, connFetchval, hto]; rfl
  · intro hslow
    rw [hem, connExecutemany, if_pos hslow]

/-- Witness for C3: on a concretely initialized concurrent facade and a
driver whose statements take a hundred seconds, a one-second deadline
makes execute and fetch fail with the timeout error. -/
theorem c3_witness :
    pA1.execute wA slowDriverA qSel [] (some 1) = Except.error Err.timeout ∧
    pA1.fetch wA slowDriverA qSel [] (some 1) = Except.error Err.timeout := by
  have h := c3_async_timeout_effective Nat wA slowDriverA pA1 0 qSel [] [] 0 1
    rfl rfl (by norm_num)
  have hs : (1 : ℚ) < slowDriverA.execTime qSel [] := by norm_num [slowDriverA]
  exact ⟨(h.2.1 hs).1, (h.2.1 hs).2.1⟩

/-- C10: on the concurrent facade, execute and executemany replace a
falsy timeout argument (absent, or zero) with sixty seconds before
forwarding it to the connection, so the forwarded deadline is never zero
and never absent, whereas fetch, fetchrow and fetchval forward the given
timeout unchanged, including an absent one. -/
theorem c10_async_timeout_defaulting :
    ∀ (V : Type) (w : AsyncWorld) (db : AsyncDriver V) (p : AsyncDatabasePool) (idx : Nat)
      (q : String) (args : List V) (argsL : List (List V)) (col : Int) (t : Option ℚ),
      p.pool = some idx → w.closedAt idx = false →
      (p.execute w db q args t = connExecute db q args (some (pyOrQ t 60)) ∧
       p.executemany w db q argsL t = connExecutemany db q argsL (some (pyOrQ t 60)) ∧
       pyOrQ none 60 = 60 ∧ pyOrQ (some 0) 60 = 60 ∧ pyOrQ t 60 ≠ 0 ∧
       p.fetch w db q args t = connFetch db q args t ∧
       p.fetchrow w db q args t = connFetchrow db q args t ∧
       p.fetchval w db q args col t = connFetchval db q args col t) := by
  intro V w db p idx q args argsL col t h1 h2
  have hacq : p.acquire w = Except.ok () := by
    simp [AsyncDatabasePool.acquire, h1, h2]
  refine ⟨?_, ?_, rfl, ?_, ?_, ?_, ?_, ?_⟩
  · rw [AsyncDatabasePool.execute, hacq]
  · rw [AsyncDatabasePool.executemany, hacq]
  · rw [pyOrQ, if_pos rfl]
  · match t with
    | none => rw [pyOrQ]; norm_num
    | some x =>
      rw [pyOrQ]
      by_cases hx : x = 0
      · rw [if_pos hx]; norm_num
      · rw [if_neg hx]; exact hx
  · rw [AsyncDatabasePool.fetch, hacq]
  · rw [AsyncDatabasePool.fetchrow, hacq]
  · rw [AsyncDatabasePool.fetchval, hacq]

/-- Witness for C10: on a concretely initialized concurrent facade, an
absent timeout reaches the connection as a sixty-second deadline for
execute, and is forwarded unchanged (still absent) for fetch. -/
theorem c10_witness :
    pA1.execute wA slowDriverA qSel [] none =
      connExecute slowDriverA qSel [] (some (pyOrQ none 60)) ∧
    pA1.fetch wA slowDriverA qSel [] none = connFetch slowDriverA qSel [] none ∧
    pyOrQ (none : Option ℚ) 60 ≠ 0 := by
  have h := c10_async_timeout_defaulting Nat wA slowDriverA pA1 0 qSel [] [] 0 none
    rfl rfl
  exact ⟨h.1, h.2.2.2.2.2.1, h.2.2.2.2.1⟩

/-- C7: on both facades, fetchval on a query matching zero rows returns
the explicit no-value result rather than an error; on a matching first
row it returns exactly the value at the requested column index of that
row, and at the default column index zero it returns the first value of
the first row. -/
theorem c7_fetchval_first_value :
    (∀ (V : Type) (w : SyncWorld) (db : SyncDriver V) (p : SyncDatabasePool) (idx : Nat)
      (q : String) (args : List V) (col : Int) (t : Option ℚ) (qr : QueryResult V),
      p.pool = some idx → w.closedAt idx = false →
      db.run q (argsOpt args) = Except.ok qr →
      (qr.rows = [] → p.fetchval w db q args col t = Except.ok none) ∧
      (∀ row rest v, qr.rows = row :: rest → pyGet row col = some v →
        p.fetchval w db q args col t = Except.ok (some v)) ∧
      (∀ v vs rest, qr.rows = (v :: vs) :: rest →
        p.fetchval w db q args 0 t = Except.ok (some v))) ∧
    (∀ (V : Type) (w : AsyncWorld) (db : AsyncDriver V) (p : AsyncDatabasePool) (idx : Nat)
      (q : String) (args : List V) (col : Int) (qr : QueryResult V),
      p.pool = some idx → w.closedAt idx = false →
      db.run q args = Except.ok qr →
      (qr.rows = [] → p.fetchval w db q args col none = Except.ok none) ∧
      (∀ row rest v, qr.rows = row :: rest → pyGet row col = some v →
        p.fetchval w db q args col none = Except.ok (some v)) ∧
      (∀ v vs rest, qr.rows = (v :: vs) :: rest →
        p.fetchval w db q args 0 none = Except.ok (some v))) := by
  constructor
  · intro V w db p idx q args col t qr h1 h2 hrun
    have hacq : p.acquire w = Except.ok () := by
      simp [SyncDatabasePool.acquire, h1, h2]
    refine ⟨?_, ?_, ?_⟩
    · intro hempty
      rw [SyncDatabasePool.fetchval, hacq, hrun]
      simp [hempty]
    · intro row rest v hrows hget
      rw [SyncDatabasePool.fetchval, hacq, hrun]
      simp [hrows, hget]
    · intro v vs rest hrows
      rw [SyncDatabasePool.fetchval, hacq, hrun]
      simp [hrows, pyGet]
  · intro V w db p idx q args col qr h1 h2 hrun
    have hacq : p.acquire w = Except.ok () := by
      simp [AsyncDatabasePool.acquire, h1, h2]
    have hto : connTimedOut db q args none = false := rfl
    refine ⟨?_, ?_, ?_⟩
    · intro hempty
      rw [AsyncDatabasePool.fetchval, hacq, connFetchval, hto]
      simp [hrun, hempty]
    · intro row rest v hrows hget
      rw [AsyncDatabasePool.fetchval, hacq, connFetchval, hto]
      simp [hrun, hrows, hget]
    · intro v vs rest hrows
      rw [AsyncDatabasePool.fetchval, hacq, connFetchval, hto]
      simp [hrun, hrows, pyGet]

/-- Witness for C7: on concretely initialized facades, a driver with no
matching rows yields the no-value result, and a driver whose first row is
the pair of seven and eight yields seven at the default column and eight
at column one. -/
theorem c7_witness :
    pS1.fetchval wS emptyDriverS qSel [] 0 none = Except.ok none ∧
    pS1.fetchval wS rowsDriverS qSel [] 0 none = Except.ok (some 7) ∧
    pS1.fetchval wS rowsDriverS qSel [] 1 none = Except.ok (some 8) ∧
    pA1.fetchval wA emptyDriverA qSel [] 0 none = Except.ok none ∧
    pA1.fetchval wA rowsDriverA qSel [] 0 none = Except.ok (some 7) := by
  have hs := c7_fetchval_first_value.1
  have ha := c7_fetchval_first_value.2
  refine ⟨?_, ?_, ?_, ?_, ?_⟩
  · exact (hs Nat wS emptyDriverS pS1 0 qSel [] 0 none
      { statusmessage := none, rows := [] } rfl rfl rfl).1 rfl
  · exact (hs Nat wS rowsDriverS pS1 0 qSel [] 0 none
      { statusmessage := some stIns, rows := [[7, 8], [9, 10]] } rfl rfl rfl).2.2
      7 [8] [[9, 10]] rfl
  · exact (hs Nat wS rowsDriverS pS1 0 qSel [] 1 none
      { statusmessage := some stIns, rows := [[7, 8], [9, 10]] } rfl rfl rfl).2.1
      [7, 8] [[9, 10]] 8 rfl (by simp [pyGet])
  · exact (ha Nat wA emptyDriverA pA1 0 qSel [] 0
      { statusmessage := none, rows := [] } rfl rfl rfl).1 rfl
  · exact (ha Nat wA rowsDriverA pA1 0 qSel [] 0
      { statusmessage := some stIns, rows := [[7, 8], [9, 10]] } rfl rfl rfl).2.2
      7 [8] [[9, 10]] rfl

/-- C1 counterexample: on a concretely initialized synchronous facade,
close() does not null the pool handle — it still holds index zero — and a
subsequent execute fails with the closed-pool error of the underlying
pool, not with the not-initialized usage error the claim requires. -/
theorem c1_counterexample :
    ((pS1.close wS).2.pool = some 0 ∧ (pS1.close wS).2.pool ≠ none) ∧
    (pS1.close wS).2.execute (pS1.close wS).1 emptyDriverS qSel [] none =
      Except.error Err.poolClosed ∧
    (pS1.close wS).2.execute (pS1.close wS).1 emptyDriverS qSel [] none ≠
      Except.error Err.notInitialized := by
  have hp : (pS1.close wS).2.pool = some 0 := rfl
  have he : (pS1.close wS).2.execute (pS1.close wS).1 emptyDriverS qSel [] none =
      Except.error Err.poolClosed := rfl
  refine ⟨⟨hp, by rw [hp]; simp⟩, he, by rw [he]; simp⟩

/-- C1 amended: on both facades, close() on an initialized facade closes
the underlying pool but leaves the pool handle in place (not nulled), so
subsequent query operations do not fail with the not-initialized usage
error but with the underlying pool's closed-pool error; the facade stays
re-initializable, and only the module-level close functions null a
handle-holding reference (the singleton). -/
theorem c1_close_keeps_handle :
    (∀ (w : SyncWorld) (p : SyncDatabasePool) (idx : Nat),
      p.pool = some idx → idx < w.pools.length →
      ((p.close w).2 = p ∧ (p.close w).2.pool = some idx ∧
       ((p.close w).1).closedAt idx = true ∧
       (∀ (V : Type) (db : SyncDriver V) (q : String) (args : List V)
         (argsL : List (List V)) (col : Int) (t : Option ℚ),
         (p.close w).2.acquire (p.close w).1 = Except.error Err.poolClosed ∧
         (p.close w).2.transaction (p.close w).1 = Except.error Err.poolClosed ∧
         (p.close w).2.execute (p.close w).1 db q args t = Except.error Err.poolClosed ∧
         (p.close w).2.executemany (p.close w).1 db q argsL t =
           Except.error Err.poolClosed ∧
         (p.close w).2.fetch (p.close w).1 db q args t = Except.error Err.poolClosed ∧
         (p.close w).2.fetchrow (p.close w).1 db q args t = Except.error Err.poolClosed ∧
         (p.close w).2.fetchval (p.close w).1 db q args col t =
           Except.error Err.poolClosed) ∧
       ((p.close w).2.initPool (p.close w).1 true).2.1.pool =
         some ((p.close w).1).pools.length)) ∧
    (∀ (w : AsyncWorld) (p : AsyncDatabasePool) (idx : Nat),
      p.pool = some idx → idx < w.pools.length →
      ((p.close w).2 = p ∧ (p.close w).2.pool = some idx ∧
       ((p.close w).1).closedAt idx = true ∧
       (∀ (V : Type) (db : AsyncDriver V) (q : String) (args : List V)
         (argsL : List (List V)) (col : Int) (t : Option ℚ),
         (p.close w).2.acquire (p.close w).1 = Except.error Err.poolClosed ∧
         (p.close w).2.transaction (p.close w).1 = Except.error Err.poolClosed ∧
         (p.close w).2.execute (p.close w).1 db q args t = Except.error Err.poolClosed ∧
         (p.close w).2.executemany (p.close w).1 db q argsL t =
           Except.error Err.poolClosed ∧
         (p.close w).2.fetch (p.close w).1 db q args t = Except.error Err.poolClosed ∧
         (p.close w).2.fetchrow (p.close w).1 db q args t = Except.error Err.poolClosed ∧
         (p.close w).2.fetchval (p.close w).1 db q args col t =
           Except.error Err.poolClosed) ∧
       ((p.close w).2.initPool (p.close w).1 true).2.1.pool =
         some ((p.close w).1).pools.length)) ∧
    (∀ (w : SyncWorld) (p : SyncDatabasePool),
      (close_sync_database w { db_pool := some p }).2.db_pool = none) ∧
    (∀ (w : AsyncWorld) (p : AsyncDatabasePool),
      (close_async_database w { db_pool := some p }).2.db_pool = none) := by
  refine ⟨?_, ?_, ?_, ?_⟩
  · intro w p idx h1 h2
    have hcl : p.close w = (w.closeAt idx, p) := by rw [SyncDatabasePool.close, h1]
    rw [hcl]
    have hclosed : (w.closeAt idx).closedAt idx = true := w.closedAt_closeAt idx h2
    have hacq : p.acquire (w.closeAt idx) = Except.error Err.poolClosed := by
      rw [SyncDatabasePool.acquire, h1]
      simp [hclosed]
    refine ⟨rfl, h1, hclosed, ?_, ?_⟩
    · intro V db q args argsL col t
      refine ⟨hacq, ?_, ?_, ?_, ?_, ?_, ?_⟩ <;>
        simp [SyncDatabasePool.transaction, SyncDatabasePool.execute,
          SyncDatabasePool.executemany, SyncDatabasePool.fetch,
          SyncDatabasePool.fetchrow, SyncDatabasePool.fetchval, hacq]
    · rw [SyncDatabasePool.initPool, if_pos rfl]
  · intro w p idx h1 h2
    have hcl : p.close w = (w.closeAt idx, p) := by rw [AsyncDatabasePool.close, h1]
    rw [hcl]
    have hclosed : (w.closeAt idx).closedAt idx = true := w.closedAt_closeAt_a idx h2
    have hacq : p.acquire (w.closeAt idx) = Except.error Err.poolClosed := by
      rw [AsyncDatabasePool.acquire, h1]
      simp [hclosed]
    refine ⟨rfl, h1, hclosed, ?_, ?_⟩
    · intro V db q args argsL col t
      refine ⟨hacq, ?_, ?_, ?_, ?_, ?_, ?_⟩ <;>
        simp [AsyncDatabasePool.transaction, AsyncDatabasePool.execute,
          AsyncDatabasePool.executemany, AsyncDatabasePool.fetch,
          AsyncDatabasePool.fetchrow, AsyncDatabasePool.fetchval, hacq]
    · rw [AsyncDatabasePool.initPool, if_pos rfl]
  · intro w p
    rw [close_sync_database]
  · intro w p
    rw [close_async_database]

/-- Witness for C1 amended: on the concretely initialized facades, close
keeps the handle at index zero, marks the pool closed, and fetch then
fails with the closed-pool error. -/
theorem c1_witness :
    (pS1.close wS).2.pool = some 0 ∧ ((pS1.close wS).1).closedAt 0 = true ∧
    (pS1.close wS).2.fetch (pS1.close wS).1 emptyDriverS qSel [] none =
      Except.error Err.poolClosed ∧
    (pA1.close wA).2.pool = some 0 ∧ ((pA1.close wA).1).closedAt 0 = true ∧
    (pA1.close wA).2.fetch (pA1.close wA).1 emptyDriverA qSel [] none =
      Except.error Err.poolClosed := by
  have hs := c1_close_keeps_handle.1 wS pS1 0 rfl (by decide)
  have ha := c1_close_keeps_handle.2.1 wA pA1 0 rfl (by decide)
  exact ⟨hs.2.1, hs.2.2.1,
    (hs.2.2.2.1 Nat emptyDriverS qSel [] [] 0 none).2.2.2.2.1,
    ha.2.1, ha.2.2.1,
    (ha.2.2.2.1 Nat emptyDriverA qSel [] [] 0 none).2.2.2.2.1⟩

lemma SyncWorld.closedAt_append (w : SyncWorld) (r : PsycopgPool) (idx : Nat)
    (h : idx < w.pools.length) :
    (SyncWorld.mk (w.pools ++ [r])).closedAt idx = w.closedAt idx := by
  rw [SyncWorld.closedAt, SyncWorld.closedAt]
  rw [show (SyncWorld.mk (w.pools ++ [r])).pools = w.pools ++ [r] from rfl]
  rw [List.get?_append h]

lemma AsyncWorld.closedAt_append_a (w : AsyncWorld) (r : AsyncpgPool) (idx : Nat)
    (h : idx < w.pools.length) :
    (AsyncWorld.mk (w.pools ++ [r])).closedAt idx = w.closedAt idx := by
  rw [AsyncWorld.closedAt, AsyncWorld.closedAt]
  rw [show (AsyncWorld.mk (w.pools ++ [r])).pools = w.pools ++ [r] from rfl]
  rw [List.get?_append h]

/-- C5: calling the global initializer a second time without an
intervening close replaces the module-level singleton with a fresh facade
and never closes the previous pool, which stays open in the world (the
re-init leak); afterwards the getter returns only the new instance, whose
handle differs from the previous one. -/
theorem c5_reinit_overwrites_without_close :
    (∀ (w : SyncWorld) (g : SyncGlobal) (old : SyncDatabasePool) (idx : Nat)
      (host : String) (port : Int) (database user password : String) (mn mx : Int),
      g.db_pool = some old → old.pool = some idx → idx < w.pools.length →
      w.closedAt idx = false →
      ∃ pnew,
        (init_sync_database w g host port database user password mn mx true).2.1.db_pool
          = some pnew ∧
        pnew.pool = some w.pools.length ∧
        get_sync_db_pool
          (init_sync_database w g host port database user password mn mx true).2.1 =
          Except.ok pnew ∧
        pnew.pool ≠ old.pool ∧
        ((init_sync_database w g host port database user password mn mx true).1).closedAt
          idx = false) ∧
    (∀ (w : AsyncWorld) (g : AsyncGlobal) (old : AsyncDatabasePool) (idx : Nat)
      (host : String) (port : Int) (database user password : String) (mn mx : Int),
      g.db_pool = some old → old.pool = some idx → idx < w.pools.length →
      w.closedAt idx = false →
      ∃ pnew,
        (init_async_database w g host port database user password mn mx true).2.1.db_pool
          = some pnew ∧
        pnew.pool = some w.pools.length ∧
        get_async_db_pool
          (init_async_database w g host port database user password mn mx true).2.1 =
          Except.ok pnew ∧
        pnew.pool ≠ old.pool ∧
        ((init_async_database w g host port database user password mn mx true).1).closedAt
          idx = false) := by
  constructor
  · intro w g old idx host port database user password mn mx h1 h2 h3 h4
    refine ⟨{ SyncDatabasePool.make host port database user password mn mx with
      pool := some w.pools.length }, ?_, rfl, ?_, ?_, ?_⟩
    · simp [init_sync_database, SyncDatabasePool.initPool]
    · simp [init_sync_database, SyncDatabasePool.initPool, get_sync_db_pool]
    · rw [h2]
      simp
      omega
    · have hw : (init_sync_database w g host port database user password mn mx true).1 =
          SyncWorld.mk (w.pools ++
            [{ conninfo := (SyncDatabasePool.make host port database user password
                mn mx).conninfo, min_size := mn, max_size := mx, closed := false }]) := by
        simp [init_sync_database, SyncDatabasePool.initPool, SyncDatabasePool.make]
      rw [hw, SyncWorld.closedAt_append _ _ _ h3]
      exact h4
  · intro w g old idx host port database user password mn mx h1 h2 h3 h4
    refine ⟨{ AsyncDatabasePool.make host port database user password mn mx with
      pool := some w.pools.length }, ?_, rfl, ?_, ?_, ?_⟩
    · simp [init_async_database, AsyncDatabasePool.initPool]
    · simp [init_async_database, AsyncDatabasePool.initPool, get_async_db_pool]
    · rw [h2]
      simp
      omega
    · have hw : (init_async_database w g host port database user password mn mx true).1 =
          AsyncWorld.mk (w.pools ++
            [{ host := host, port := port, database := database, user := user,
               password := password, min_size := mn, max_size := mx,
               command_timeout := 60,
               connInit := AsyncDatabasePool.setupConnection, closed := false }]) := by
        simp [init_async_database, AsyncDatabasePool.initPool, AsyncDatabasePool.make]
      rw [hw, AsyncWorld.closedAt_append_a _ _ _ h3]
      exact h4

/-- Witness for C5: re-initializing over the concretely initialized
fixtures leaves the old pool at index zero open and the getter returns
the new facade whose handle is index one. -/
theorem c5_witness :
    ∃ pnew,
      (init_sync_database wS { db_pool := some pS1 } hLocal 5432 hLocal hLocal hLocal
        1 10 true).2.1.db_pool = some pnew ∧
      pnew.pool = some 1 ∧
      get_sync_db_pool (init_sync_database wS { db_pool := some pS1 } hLocal 5432 hLocal
        hLocal hLocal 1 10 true).2.1 = Except.ok pnew ∧
      pnew.pool ≠ pS1.pool ∧
      ((init_sync_database wS { db_pool := some pS1 } hLocal 5432 hLocal hLocal hLocal
        1 10 true).1).closedAt 0 = false := by
  have h := c5_reinit_overwrites_without_close.1 wS { db_pool := some pS1 } pS1 0
    hLocal 5432 hLocal hLocal hLocal 1 10 rfl rfl (by decide) rfl
  exact h

/-- C6: if the global initializer fails while opening the pool, the
singleton is not rolled back: it already holds the fresh facade whose
pool handle is null, the construction error propagates, the getter then
succeeds and returns that facade, every query operation on it raises the
not-initialized usage error, and the world is unchanged (any previous
pool is no longer reachable through the getter). -/
theorem c6_failed_init_not_rolled_back :
    (∀ (w : SyncWorld) (g : SyncGlobal) (host : String) (port : Int)
      (database user password : String) (mn mx : Int),
      ∃ pnew,
        (init_sync_database w g host port database user password mn mx false).2.1.db_pool
          = some pnew ∧
        pnew.pool = none ∧
        (init_sync_database w g host port database user password mn mx false).2.2 =
          Except.error Err.connectionError ∧
        (init_sync_database w g host port database user password mn mx false).1 = w ∧
        get_sync_db_pool
          (init_sync_database w g host port database user password mn mx false).2.1 =
          Except.ok pnew ∧
        (∀ (w2 : SyncWorld) (V : Type) (db : SyncDriver V) (q : String) (args : List V)
          (t : Option ℚ),
          pnew.acquire w2 = Except.error Err.notInitialized ∧
          pnew.execute w2 db q args t = Except.error Err.notInitialized ∧
          pnew.fetch w2 db q args t = Except.error Err.notInitialized)) ∧
    (∀ (w : AsyncWorld) (g : AsyncGlobal) (host : String) (port : Int)
      (database user password : String) (mn mx : Int),
      ∃ pnew,
        (init_async_database w g host port database user password mn mx false).2.1.db_pool
          = some pnew ∧
        pnew.pool = none ∧
        (init_async_database w g host port database user password mn mx false).2.2 =
          Except.error Err.connectionError ∧
        (init_async_database w g host port database user password mn mx false).1 = w ∧
        get_async_db_pool
          (init_async_database w g host port database user password mn mx false).2.1 =
          Except.ok pnew ∧
        (∀ (w2 : AsyncWorld) (V : Type) (db : AsyncDriver V) (q : String) (args : List V)
          (t : Option ℚ),
          pnew.acquire w2 = Except.error Err.notInitialized ∧
          pnew.execute w2 db q args t = Except.error Err.notInitialized ∧
          pnew.fetch w2 db q args t = Except.error Err.notInitialized)) := by
  constructor
  · intro w g host port database user password mn mx
    refine ⟨SyncDatabasePool.make host port database user password mn mx,
      ?_, rfl, ?_, ?_, ?_, ?_⟩
    · simp [init_sync_database, SyncDatabasePool.initPool]
    · simp [init_sync_database, SyncDatabasePool.initPool]
    · simp [init_sync_database, SyncDatabasePool.initPool]
    · simp [init_sync_database, SyncDatabasePool.initPool, get_sync_db_pool]
    · intro w2 V db q args t
      have h := sync_uninit_ops_fail w2
        (SyncDatabasePool.make host port database user password mn mx) rfl
      exact ⟨h.1, (h.2.2 V db q args [] 0 t).1, (h.2.2 V db q args [] 0 t).2.2.1⟩
  · intro w g host port database user password mn mx
    refine ⟨AsyncDatabasePool.make host port database user password mn mx,
      ?_, rfl, ?_, ?_, ?_, ?_⟩
    · simp [init_async_database, AsyncDatabasePool.initPool]
    · simp [init_async_database, AsyncDatabasePool.initPool]
    · simp [init_async_database, AsyncDatabasePool.initPool]
    · simp [init_async_database, AsyncDatabasePool.initPool, get_async_db_pool]
    · intro w2 V db q args t
      have h := async_uninit_ops_fail w2
        (AsyncDatabasePool.make host port database user password mn mx) rfl
      exact ⟨h.1, (h.2.2 V db q args [] 0 t).1, (h.2.2 V db q args [] 0 t).2.2.1⟩

/-- `spaceJoin` on a list of at least two elements emits the head, a
space, and the join of the tail. -/
lemma spaceJoin_cons₂ (x y : String) (rest : List String) :
    spaceJoin (x :: y :: rest) = x ++ " " ++ spaceJoin (y :: rest) := rfl

/-- `spaceJoin` on a one-element list is that element. -/
lemma spaceJoin_single (x : String) : spaceJoin [x] = x := rfl

/-- C8: for every configuration, the synchronous facade's initializer
builds the connection string as a single text string of space-separated
key=value pairs with exactly the keys host, port, dbname, user, password,
in that order, each value verbatim from the configuration — the
source-derived string equals the spec-side format — and the pool stored
on initialization carries exactly that string. -/
theorem c8_conninfo_format :
    ∀ (p : SyncDatabasePool),
      p.conninfo = conninfoSpec p ∧
      ∀ (w : SyncWorld), ((p.initPool w true).1).at? w.pools.length =
        some { conninfo := p.conninfo, min_size := p.min_connections,
               max_size := p.max_connections, closed := false } := by
  intro p
  constructor
  · rw [SyncDatabasePool.conninfo, conninfoSpec, spaceJoin_cons₂, spaceJoin_cons₂,
      spaceJoin_cons₂, spaceJoin_cons₂, spaceJoin_single, kvPair, kvPair, kvPair,
      kvPair, kvPair, hostKey, portKey, dbnameKey, userKey, passwordKey]
    simp only [String.append_assoc]
    rfl
  · intro w
    simp [SyncDatabasePool.initPool, SyncWorld.at?]

/-- C9: for every structured value, the structured-text codec installed at
connection setup round-trips (decode after encode is the identity), and
every new physical connection of the pool stored by the concurrent
initializer carries exactly the two codecs, for the column types json and
jsonb in the catalog schema. -/
theorem c9_codec_roundtrip_and_install :
    ∀ (w : AsyncWorld) (p : AsyncDatabasePool) (v : Json),
      (((AsyncDatabasePool.initPool w p true).1).at? w.pools.length).map
          (fun r => r.newConnection.codecs) = some [jsonCodec, jsonbCodec] ∧
      jsonCodec.typname = "json" ∧ jsonCodec.schema = "pg_catalog" ∧
      jsonbCodec.typname = "jsonb" ∧ jsonbCodec.schema = "pg_catalog" ∧
      jsonCodec.dec (jsonCodec.enc v) = some v ∧
      jsonbCodec.dec (jsonbCodec.enc v) = some v := by
  intro w p v
  refine ⟨?_, rfl, rfl, rfl, rfl, ?_, ?_⟩
  · simp [AsyncDatabasePool.initPool, AsyncWorld.at?, AsyncpgPool.newConnection,
      AsyncDatabasePool.setupConnection]
  · exact loads_dumps v
  · exact loads_dumps v

end Ezpg
